import Mathlib

/-!
# Open Collective frontend: payment-method popup and host section

A shallow embedding of the decision logic of two React components,

* `components/recurring-contributions/UpdatePaymentMethodPopUp.js`
  (the `paymentOptions` memo, `getPaymentMethodMetadata`, the default-selection effect, the
  Update and Save handlers), and
* `components/edit-collective/sections/Host.js`
  (`componentDidMount`, `changeHost`, what `render` shows and offers, the component-local
  state),

together with the runtime pieces they call: lodash `uniqBy`/`first`/`get` and the
JavaScript engine's `Array.prototype.sort`.

JavaScript values are embedded as follows: numbers that are database ids are `Nat`,
amounts in minor currency units are `Int`, a property that may hold a falsy value
(`null`, `undefined`) is an `Option`, and where the code distinguishes `null` from
`undefined` with `===` the two are kept apart (`Nullable`).
-/

namespace OpenCollective

/-! ## Runtime: `Array.prototype.sort`

ECMAScript leaves the order produced by `sort` implementation-defined when the comparator is
not a consistent comparison function; the popup's comparator is not one (it returns a boolean
and ignores its second argument), so the engine's algorithm decides the result.  The model
below is V8's TimSort (`third_party/v8/builtins/array-sort.tq`, the engine of Node.js and
Chrome since V8 7.0): run detection, binary insertion up to the minimum run length, the stack
of pending runs and its collapse rules.  Merging two adjacent runs is modelled by the plain
stable two-way merge; V8's galloping mode is not modelled. -/

section ArraySort

variable {α : Type}

/-- The loop of `ComputeMinRunLength`: `while (n >= 64) { r |= n & 1; n >>= 1 }`, then `n + r`. -/
def computeMinRunLengthLoop : Nat → Nat → Nat → Nat
  | 0, n, r => n + r
  | fuel + 1, n, r =>
    if 64 ≤ n then computeMinRunLengthLoop fuel (n >>> 1) (r ||| (n &&& 1)) else n + r

/-- Model of `ComputeMinRunLength(n)`; the loop halves `n`, so `n` iterations are more than
enough. -/
def computeMinRunLength (n : Nat) : Nat := computeMinRunLengthLoop n n 0

/-- The `for` loop of `CountAndMakeRun`: how many further elements continue the run whose
last element is `previousElement`. -/
def countRun (cmp : α → α → Int) (isDescending : Bool) : α → List α → Nat
  | _, [] => 0
  | previousElement, currentElement :: rest =>
    let order := cmp currentElement previousElement
    if isDescending then
      if 0 ≤ order then 0 else countRun cmp isDescending currentElement rest + 1
    else
      if order < 0 then 0 else countRun cmp isDescending currentElement rest + 1

/-- Model of `CountAndMakeRun(low, high)` on the slice `workArray[low .. high)`: the length of the run
starting at `low`, and the slice with that run reversed when it is strictly descending. -/
def countAndMakeRun (cmp : α → α → Int) : List α → Nat × List α
  | [] => (0, [])
  | [x] => (1, [x])
  | elementHigh :: elementLow :: rest =>
    let order := cmp elementLow elementHigh
    let isDescending := decide (order < 0)
    let runLength := countRun cmp isDescending elementLow rest + 2
    let slice := elementHigh :: elementLow :: rest
    if isDescending then
      (runLength, (slice.take runLength).reverse ++ slice.drop runLength)
    else
      (runLength, slice)

/-- The binary search of `BinaryInsertionSort`: the insertion point of `pivot` in
`workArray[left .. right)`. -/
def binarySearch (cmp : α → α → Int) (pivot : α) (workArray : List α) : Nat → Nat → Nat → Nat
  | 0, left, _ => left
  | fuel + 1, left, right =>
    if left < right then
      let mid := left + ((right - left) >>> 1)
      match workArray.get? mid with
      | some element =>
        if cmp pivot element < 0 then binarySearch cmp pivot workArray fuel left mid
        else binarySearch cmp pivot workArray fuel (mid + 1) right
      | none => left
    else left

/-- The outer loop of `BinaryInsertionSort`: `count` elements from index `start` on are
inserted, one after the other, into the sorted prefix before them. -/
def binaryInsertionLoop (cmp : α → α → Int) : Nat → Nat → List α → List α
  | 0, _, workArray => workArray
  | count + 1, start, workArray =>
    match workArray.get? start with
    | none => workArray
    | some pivot =>
      let left := binarySearch cmp pivot workArray (start + 1) 0 start
      binaryInsertionLoop cmp count (start + 1)
        (workArray.take left ++ pivot :: ((workArray.drop left).take (start - left)
          ++ workArray.drop (start + 1)))

/-- Model of `BinaryInsertionSort(low, startArg, high)` on the slice starting at `low`. -/
def binaryInsertionSort (cmp : α → α → Int) (workArray : List α) (startArg high : Nat) :
    List α :=
  let start := if startArg = 0 then startArg + 1 else startArg
  binaryInsertionLoop cmp (high - start) start workArray

/-- Stable merge of two adjacent runs, `a` before `b`: an element of `b` goes first only when
the comparator puts it strictly before the head of `a`. -/
def mergeRuns (cmp : α → α → Int) : List α → List α → List α
  | [], b => b
  | a, [] => a
  | x :: a, y :: b =>
    if cmp y x < 0 then y :: mergeRuns cmp (x :: a) b else x :: mergeRuns cmp a (y :: b)
termination_by a b => a.length + b.length

/-- Model of `MergeCollapse`: restores the invariants of the stack of pending runs (top of the stack
first in the list). -/
def mergeCollapse (cmp : α → α → Int) : Nat → List (List α) → List (List α)
  | 0, pendingRuns => pendingRuns
  | fuel + 1, top :: run :: below =>
    let established1 :=
      match below with
      | under :: _ => decide (run.length + top.length < under.length)
      | [] => true
    let established0 :=
      match below with
      | under :: under2 :: _ => decide (under.length + run.length < under2.length)
      | _ => true
    if !established1 || !established0 then
      match below with
      | under :: below2 =>
        if under.length < top.length then
          mergeCollapse cmp fuel (top :: mergeRuns cmp under run :: below2)
        else
          mergeCollapse cmp fuel (mergeRuns cmp run top :: below)
      | [] => mergeCollapse cmp fuel (mergeRuns cmp run top :: below)
    else if run.length ≤ top.length then
      mergeCollapse cmp fuel (mergeRuns cmp run top :: below)
    else
      top :: run :: below
  | _ + 1, pendingRuns => pendingRuns

/-- Model of `MergeForceCollapse`: merges all pending runs into one. -/
def mergeForceCollapse (cmp : α → α → Int) : Nat → List (List α) → List (List α)
  | 0, pendingRuns => pendingRuns
  | fuel + 1, top :: run :: below =>
    match below with
    | under :: below2 =>
      if under.length < top.length then
        mergeForceCollapse cmp fuel (top :: mergeRuns cmp under run :: below2)
      else
        mergeForceCollapse cmp fuel (mergeRuns cmp run top :: below)
    | [] => mergeForceCollapse cmp fuel (mergeRuns cmp run top :: below)
  | _ + 1, pendingRuns => pendingRuns

/-- The `while (remaining != 0)` loop of `ArrayTimSortImpl`; `remaining` is the part of the
work array not yet cut into runs.  Every iteration removes at least one element, so a fuel of
`remaining.length` is enough. -/
def timSortLoop (cmp : α → α → Int) (minRunLength : Nat) :
    Nat → List (List α) → List α → List (List α)
  | 0, pendingRuns, remaining => if remaining.isEmpty then pendingRuns else remaining :: pendingRuns
  | fuel + 1, pendingRuns, remaining =>
    if remaining.isEmpty then pendingRuns
    else
      let counted := countAndMakeRun cmp remaining
      let forcedRunLength := min minRunLength remaining.length
      let currentRunLength := if counted.1 < minRunLength then forcedRunLength else counted.1
      let workArray :=
        if counted.1 < minRunLength then
          binaryInsertionSort cmp counted.2 counted.1 forcedRunLength
        else counted.2
      let pushed := workArray.take currentRunLength :: pendingRuns
      timSortLoop cmp minRunLength fuel (mergeCollapse cmp pushed.length pushed)
        (workArray.drop currentRunLength)

/-- Model of `ArrayTimSortImpl`: the sorted work array. -/
def arrayTimSortImpl (cmp : α → α → Int) (workArray : List α) : List α :=
  if workArray.length < 2 then workArray
  else
    let pendingRuns :=
      timSortLoop cmp (computeMinRunLength workArray.length) workArray.length [] workArray
    (mergeForceCollapse cmp pendingRuns.length pendingRuns).reverse.flatten

/-- Model of `Array.prototype.sort(comparefn)` on an array without holes or `undefined`
entries. -/
def arraySort (comparefn : α → α → Int) (array : List α) : List α :=
  arrayTimSortImpl comparefn array

/-! V8 before 7.0 (Node.js up to 10, `src/js/array.js`) sorts an array of at most 10 elements
with `InsertionSort(a, 0, length)`; other engines use an insertion sort of the same shape for
short arrays.  With the popup's comparator this engine gives another order than TimSort. -/

/-- The inner `for (j = i - 1; j >= from; j--)` loop of the older `InsertionSort`: the sorted
part before `element` is given nearest element first; every `tmp` with
`comparefn(tmp, element) > 0` moves one place to the right, and `element` lands before the
first `tmp` that does not. -/
def insertionSortInsert (comparefn : α → α → Int) (element : α) : List α → List α
  | [] => [element]
  | tmp :: rest =>
    if 0 < comparefn tmp element then tmp :: insertionSortInsert comparefn element rest
    else element :: tmp :: rest

/-- Model of `InsertionSort(a, 0, a.length)` of V8 before 7.0, which is all that
`Array.prototype.sort` does there on an array of at most 10 elements. -/
def insertionSort (comparefn : α → α → Int) (a : List α) : List α :=
  (a.foldl (fun sorted element => insertionSortInsert comparefn element sorted) []).reverse

end ArraySort

/-! ## Runtime: lodash -/

section Lodash

variable {α κ : Type} [DecidableEq κ]

/-- The loop of lodash `baseUniq` with an iteratee: `seen` holds the computed keys of the
values already pushed to the result. -/
def baseUniq (iteratee : α → κ) : List κ → List α → List α
  | _, [] => []
  | seen, value :: rest =>
    if iteratee value ∈ seen then baseUniq iteratee seen rest
    else value :: baseUniq iteratee (iteratee value :: seen) rest

/-- Lodash `uniqBy(array, iteratee)`. -/
def uniqBy (iteratee : α → κ) (array : List α) : List α := baseUniq iteratee [] array

/-- Lodash `first(array)`: `undefined` (here `none`) for an empty array. -/
def first (array : List α) : Option α := array.head?

end Lodash

/-- A JavaScript property that the code compares with `===`: `null`, `undefined` or a
value. -/
inductive Nullable (α : Type) where
  | null
  | undefined
  | value (a : α)
  deriving DecidableEq, Repr

/-- Lodash `first` of a filtered array, as a JavaScript value: `undefined` when empty. -/
def Nullable.ofFirst {α : Type} : Option α → Nullable α
  | none => .undefined
  | some a => .value a

/-! ## `UpdatePaymentMethodPopUp.js` -/

/-- A payment method as returned by `getPaymentMethodsQuery`, with the fields the popup
reads.  `expiryDate` is `none` when the property is falsy. -/
structure PaymentMethod where
  id : Nat
  type : String
  balance : Int
  currency : String
  expiryDate : Option String
  collectiveId : Nat
  deriving DecidableEq, Repr

/-- The contribution (order) whose payment method is being updated. -/
structure Contribution where
  id : Nat
  legacyPaymentMethodId : Nat
  deriving DecidableEq, Repr

/-- The icon components of `getPaymentMethodIcon`. -/
inductive Icon where
  | CreditCard
  | GiftCard
  | MoneyCheck
  deriving DecidableEq, Repr

/-- A value passed to a `FormattedMessage`: a string, or a `FormattedDate` element with
numeric month and year. -/
inductive MessageValue where
  | text (s : String)
  | FormattedDate (value : String)
  deriving DecidableEq, Repr

/-- A `FormattedMessage` element: message id, default message and values. -/
structure FormattedMessage where
  id : String
  defaultMessage : String
  values : List (String × MessageValue)
  deriving DecidableEq, Repr

/-- The helpers imported from `lib/` that the popup calls; they are not part of the
component and stay abstract. -/
structure Lib where
  getPaymentMethodName : PaymentMethod → String
  paymentMethodExpiration : PaymentMethod → String
  formatCurrency : Int → String → String

/-- An entry of the radio list built by `paymentOptions`. -/
structure PaymentOption where
  key : String
  title : String
  subtitle : Option FormattedMessage
  icon : Option Icon
  paymentMethod : PaymentMethod
  disabled : Bool
  id : Nat
  CollectiveId : Nat
  deriving DecidableEq, Repr

/-- Minimum usable balance for virtual card. -/
def minBalance : Int := 50

/-- Source: `getPaymentMethodIcon`. -/
def getPaymentMethodIcon (pm : PaymentMethod) : Option Icon :=
  if pm.type = "creditcard" then some Icon.CreditCard
  else if pm.type = "virtualcard" then some Icon.GiftCard
  else if pm.type = "prepaid" then some Icon.MoneyCheck
  else none

/-- The message `ContributePayment.expiresOn`. -/
def expiresOnMessage (expiryDate : String) : FormattedMessage :=
  { id := "ContributePayment.expiresOn"
    defaultMessage := "Expires on {expiryDate}"
    values := [("expiryDate", .text expiryDate)] }

/-- The message `ContributePayment.unusableBalance`. -/
def unusableBalanceMessage (balance minBalance : String) : FormattedMessage :=
  { id := "ContributePayment.unusableBalance"
    defaultMessage := "{balance} left, balance less than {minBalance} cannot be used."
    values := [("balance", .text balance), ("minBalance", .text minBalance)] }

/-- The message `RecurringContributions.balanceAndExpiry`. -/
def balanceAndExpiryMessage (expiryDate balance : String) : FormattedMessage :=
  { id := "RecurringContributions.balanceAndExpiry"
    defaultMessage := "{balance} left, expires {expiryDate}"
    values := [("expiryDate", .FormattedDate expiryDate), ("balance", .text balance)] }

/-- The message `ContributePayment.balanceLeft`. -/
def balanceLeftMessage (balance : String) : FormattedMessage :=
  { id := "ContributePayment.balanceLeft"
    defaultMessage := "{balance} left"
    values := [("balance", .text balance)] }

/-- Source: `getPaymentMethodMetadata`; `none` is the `undefined` of the missing final
`else`. -/
def getPaymentMethodMetadata (lib : Lib) (pm : PaymentMethod) : Option FormattedMessage :=
  if pm.type = "creditcard" then
    let expiryDate := lib.paymentMethodExpiration pm
    some (expiresOnMessage expiryDate)
  else if pm.type = "virtualcard" then
    if pm.balance < minBalance then
      some (unusableBalanceMessage (lib.formatCurrency pm.balance pm.currency)
        (lib.formatCurrency minBalance pm.currency))
    else
      match pm.expiryDate with
      | some expiryDate =>
        some (balanceAndExpiryMessage expiryDate (lib.formatCurrency pm.balance pm.currency))
      | none => some (balanceLeftMessage (lib.formatCurrency pm.balance pm.currency))
  else if pm.type ∈ ["prepaid", "collective"] then
    some (balanceLeftMessage (lib.formatCurrency pm.balance pm.currency))
  else none

/-- The template literal of the option key, with the payment-method id in decimal. -/
def optionKey (id : Nat) : String := "pm-" ++ toString id

/-- The object literal mapped over `paymentMethods` in `paymentOptions`. -/
def toPaymentOption (lib : Lib) (pm : PaymentMethod) : PaymentOption :=
  { key := optionKey pm.id
    title := lib.getPaymentMethodName pm
    subtitle := getPaymentMethodMetadata lib pm
    icon := getPaymentMethodIcon pm
    paymentMethod := pm
    disabled := decide (pm.balance < minBalance)
    id := pm.id
    CollectiveId := pm.collectiveId }

/-- The comparator handed to `sort`, `a => a.id !== contribution.legacyPaymentMethodId`: it
ignores its second argument, and the engine converts the boolean to a number (`true` to 1,
`false` to 0). -/
def matchesContributionComparator (contribution : Contribution) (a _b : PaymentOption) : Int :=
  if a.id ≠ contribution.legacyPaymentMethodId then 1 else 0

/-- The options after `map` and `uniqBy(…, 'key')`, before the sort. -/
def uniquePMs (lib : Lib) (paymentMethods : List PaymentMethod) : List PaymentOption :=
  uniqBy (fun option => option.key) (paymentMethods.map (toPaymentOption lib))

/-- Source: the `paymentOptions` memo; `none` is `null`. -/
def paymentOptions (lib : Lib) (contribution : Contribution)
    (paymentMethods : Option (List PaymentMethod)) : Option (List PaymentOption) :=
  match paymentMethods with
  | none => none
  | some paymentMethods =>
    let paymentMethodsOptions := paymentMethods.map (toPaymentOption lib)
    let uniquePMs := uniqBy (fun option => option.key) paymentMethodsOptions
    let sortedPMs := arraySort (matchesContributionComparator contribution) uniquePMs
    some sortedPMs

/-- The `paymentOptions` memo on an engine whose `Array.prototype.sort` is `sort`. -/
def paymentOptionsWith
    (sort : (PaymentOption → PaymentOption → Int) → List PaymentOption → List PaymentOption)
    (lib : Lib) (contribution : Contribution) (paymentMethods : Option (List PaymentMethod)) :
    Option (List PaymentOption) :=
  match paymentMethods with
  | none => none
  | some paymentMethods =>
    let paymentMethodsOptions := paymentMethods.map (toPaymentOption lib)
    let uniquePMs := uniqBy (fun option => option.key) paymentMethodsOptions
    let sortedPMs := sort (matchesContributionComparator contribution) uniquePMs
    some sortedPMs

/-- The value given to `setDefaultPaymentMethod` by the effect:
`first(paymentOptions.filter(option => option.id === contribution.legacyPaymentMethodId))`. -/
def resolveDefault (contribution : Contribution) (paymentOptions : List PaymentOption) :
    Option PaymentOption :=
  first (paymentOptions.filter (fun option => option.id = contribution.legacyPaymentMethodId))

/-- The `useState` cells of the popup that the memo and the effect touch, and the value of
the `paymentOptions` memo of the last render. -/
structure PopupState where
  showAddPaymentMethod : Bool
  selectedPaymentMethod : Option PaymentOption
  defaultPaymentMethod : Nullable PaymentOption
  loadingDefaultPaymentMethod : Bool
  paymentOptions : Option (List PaymentOption)
  deriving DecidableEq, Repr

/-- The state of the first render, before any query result. -/
def PopupState.initial : PopupState :=
  { showAddPaymentMethod := false
    selectedPaymentMethod := none
    defaultPaymentMethod := .null
    loadingDefaultPaymentMethod := true
    paymentOptions := none }

/-- Source: the body of `useEffect(…, [paymentOptions])`. -/
def defaultPaymentMethodEffect (contribution : Contribution) (s : PopupState) : PopupState :=
  match s.paymentOptions with
  | some paymentOptions =>
    if s.defaultPaymentMethod = .null then
      { s with
        defaultPaymentMethod := Nullable.ofFirst (resolveDefault contribution paymentOptions)
        loadingDefaultPaymentMethod := false }
    else s
  | none => s

/-- What can happen to the popup: the query delivers a (new) `paymentMethods` value, the
user picks an entry of the radio list, opens the add-payment-method form, or cancels it. -/
inductive PopupEvent where
  | paymentMethodsChanged (paymentMethods : Option (List PaymentMethod))
  | select (option : PaymentOption)
  | openAddPaymentMethod
  | cancelAddPaymentMethod

/-- One render cycle.  A new `paymentMethods` value recomputes the memo, and the changed
memo value runs the effect; the other events set one state cell, leave the memo's dependency
alone and so skip the effect. -/
def PopupState.step (lib : Lib) (contribution : Contribution) (s : PopupState) :
    PopupEvent → PopupState
  | .paymentMethodsChanged paymentMethods =>
    defaultPaymentMethodEffect contribution
      { s with paymentOptions := OpenCollective.paymentOptions lib contribution paymentMethods }
  | .select option => { s with selectedPaymentMethod := some option }
  | .openAddPaymentMethod => { s with showAddPaymentMethod := true }
  | .cancelAddPaymentMethod => { s with showAddPaymentMethod := false }

/-- The state after a sequence of events. -/
def PopupState.run (lib : Lib) (contribution : Contribution) (s : PopupState)
    (events : List PopupEvent) : PopupState :=
  events.foldl (PopupState.step lib contribution) s

/-! ## `Host.js` -/

/-- The `collective.host` object. -/
structure HostCollective where
  id : Nat
  name : String
  deriving DecidableEq, Repr

/-- The `collective` prop with the fields the host section reads; `balance` is
`collective.stats.balance`, and `host` is `none` when the collective has no host. -/
structure Collective where
  id : Nat
  slug : String
  host : Option HostCollective
  isActive : Bool
  balance : Int
  currency : String
  deriving DecidableEq, Repr

/-- Lodash `get(collective, 'host.id')`: `undefined` when the path does not resolve. -/
def getHostId (collective : Collective) : Nullable Nat :=
  match collective.host with
  | none => .undefined
  | some host => .value host.id

/-- JavaScript truthiness of an id: `null`, `undefined` and `0` are falsy. -/
def Nullable.truthy : Nullable Nat → Bool
  | .value n => n != 0
  | _ => false

/-- The argument of `changeHost`. -/
structure NewHost where
  id : Nullable Nat
  deriving DecidableEq, Repr

/-- The default argument of `changeHost`, `{ id: null }`. -/
def NewHost.default : NewHost := { id := .null }

/-- The props of the host section: the collective, whether `LoggedInUser` is set, the
`selectedOption` of the router query, and the mutation collaborator, which succeeds or fails
with an error message. -/
structure HostProps where
  collective : Collective
  LoggedInUser : Bool
  selectedOption : Option String
  editCollectiveMutation : Nat → Nullable Nat → Except String Unit

/-- The component-local state set by the constructor and `setState`. -/
structure HostState where
  showModal : Bool
  action : String
  deriving DecidableEq, Repr

/-- Source: the `this.state` of the constructor. -/
def HostState.initial : HostState := { showModal := false, action := "" }

/-- The calls the component makes to its collaborators. -/
inductive Effect where
  | editCollectiveMutation (id : Nat) (HostCollectiveId : Nullable Nat)
  | pushRoute (route slug sectionName selectedOption : String)
  deriving DecidableEq, Repr

/-- What a handler leaves behind: the local state, the collaborator calls in order, and
whether the handler completed or threw (for an `async` handler: resolved or rejected). -/
structure Completion where
  state : HostState
  effects : List Effect
  result : Except String Unit

/-- Source: `updateSelectedOption`. -/
def updateSelectedOption (props : HostProps) (option : String) : Effect :=
  .pushRoute "editCollective" props.collective.slug "host" option

/-- Source: `changeHost`. -/
def changeHost (props : HostProps) (s : HostState) (newHost : NewHost) : Completion :=
  let collective := props.collective
  let s := { s with showModal := false }
  if newHost.id = getHostId collective then
    { state := s, effects := [], result := .ok () }
  else
    let call := Effect.editCollectiveMutation collective.id newHost.id
    match props.editCollectiveMutation collective.id newHost.id with
    | .error e => { state := s, effects := [call], result := .error e }
    | .ok _ =>
      if !newHost.id.truthy then
        { state := s, effects := [call, updateSelectedOption props "noHost"], result := .ok () }
      else
        { state := s, effects := [call], result := .ok () }

/-- The controls of `render` that carry a handler. -/
inductive UserAction where
  | clickWithdraw
  | clickRemove
  | closeModal
  | cancel
  | confirm
  | selectOption (option : String)
  | submitOwnHost (hostCollective : HostCollective)
  deriving DecidableEq, Repr

/-- Source: `render`, which controls are on screen.  With a host: the withdraw button while
the collective is not active, the remove button while it is active with a balance of zero,
and the buttons of the modal while `showModal` is set.  Without a host: the three radios, and
the create-host form under the `ownHost` option for a logged-in user. -/
def offered (props : HostProps) (s : HostState) (action : UserAction) : Bool :=
  let collective := props.collective
  let selectedOption := props.selectedOption.getD "noHost"
  if (getHostId collective).truthy then
    match action with
    | .clickWithdraw => !collective.isActive
    | .clickRemove => collective.isActive && decide (collective.balance = 0)
    | .closeModal => s.showModal
    | .cancel => s.showModal
    | .confirm => s.showModal
    | _ => false
  else
    match action with
    | .selectOption option => decide (option ∈ ["noHost", "ownHost", "findHost"])
    | .submitOwnHost _ => decide (selectedOption = "ownHost") && props.LoggedInUser
    | _ => false

/-- Source: the handlers attached in `render`. -/
def handle (props : HostProps) (s : HostState) : UserAction → Completion
  | .clickWithdraw =>
    { state := { showModal := true, action := "Withdraw" }, effects := [], result := .ok () }
  | .clickRemove =>
    { state := { showModal := true, action := "Remove" }, effects := [], result := .ok () }
  | .closeModal => { state := { s with showModal := false }, effects := [], result := .ok () }
  | .cancel => { state := { s with showModal := false }, effects := [], result := .ok () }
  | .confirm => changeHost props s NewHost.default
  | .selectOption option =>
    { state := s, effects := [updateSelectedOption props option], result := .ok () }
  | .submitOwnHost hostCollective => changeHost props s { id := .value hostCollective.id }

/-- A sequence of user actions under fixed props: `none` when an action is not on screen at
its turn, else the final local state and all collaborator calls in order. -/
def runActions (props : HostProps) : HostState → List UserAction →
    Option (HostState × List Effect)
  | s, [] => some (s, [])
  | s, action :: rest =>
    if offered props s action then
      let done := handle props s action
      (runActions props done.state rest).map (fun r => (r.1, done.effects ++ r.2))
    else none

/-! ### `Host.js`: what `render` shows -/

/-- The elements of the host section that carry text or a handler. -/
inductive ViewItem where
  | CollectiveCard
  | message (id : String)
  | Button (onClick : UserAction) (label : String)
  | ModalClose
  | Radio (option : String) (checked : Bool)
  | CreateHostFormWithData
  | HostsWithData
  deriving DecidableEq, Repr

/-- Source: the `Modal` of `render`, with `show={showModal}`: header with its close control,
the question that belongs to `action`, and the cancel and continue buttons. -/
def renderModal (s : HostState) : List ViewItem :=
  if s.showModal then
    [ViewItem.ModalClose,
      .message (if s.action = "Remove" then "collective.editHost.remove"
        else "collective.editHost.header")]
    ++ (if s.action = "Withdraw" then [ViewItem.message "collective.editHost.withdrawApp"]
        else [])
    ++ (if s.action = "Remove" then [ViewItem.message "collective.editHost.removeHost"]
        else [])
    ++ [.Button .cancel "actions.cancel", .Button .confirm "collective.editHost.continue.btn"]
  else []

/-- Source: the branch of `render` for a collective with a host. -/
def renderHostView (collective : Collective) (s : HostState) : List ViewItem :=
  [ViewItem.CollectiveCard]
  ++ (if !collective.isActive then
        [ViewItem.message "editCollective.host.pending",
          .Button .clickWithdraw "editCollective.host.cancelApplicationBtn"]
      else [])
  ++ (if collective.isActive then
        [ViewItem.message "editCollective.host.label"]
        ++ (if 0 < collective.balance then
              [ViewItem.message "editCollective.host.balance",
                .message "editCollective.host.change.balanceNotEmpty"]
            else [])
        ++ (if collective.balance = 0 then
              [ViewItem.Button .clickRemove "editCollective.host.removeBtn",
                .message "editCollective.host.change.removeFirst"]
            else [])
      else [])
  ++ renderModal s

/-- Source: the branch of `render` for a collective without a host: the three options with
their radios, the create-host form under `ownHost`, the suggested hosts under `findHost`
(the line listing the collective's tags is left out). -/
def renderNoHostView (props : HostProps) : List ViewItem :=
  let selectedOption := props.selectedOption.getD "noHost"
  [ViewItem.Radio "noHost" (decide (selectedOption = "noHost")),
    .message "collective.edit.host.noHost.title",
    .message "collective.edit.host.noHost.description",
    .Radio "ownHost" (decide (selectedOption = "ownHost")),
    .message "collective.edit.host.useOwn.title",
    .message "collective.edit.host.useOwn.description",
    .message "moreInfo"]
  ++ (if decide (selectedOption = "ownHost") && props.LoggedInUser then
        [ViewItem.CreateHostFormWithData]
      else [])
  ++ [.Radio "findHost" (decide (selectedOption = "findHost")),
    .message "collective.edit.host.findHost.title",
    .message "collective.edit.host.findHost.description"]
  ++ (if selectedOption = "findHost" then
        [ViewItem.message "collective.edit.host.suggestedHosts.title",
          .message "collective.edit.host.viewAllHosts",
          .HostsWithData]
      else [])

/-- Source: `render`. -/
def render (props : HostProps) (s : HostState) : List ViewItem :=
  if (getHostId props.collective).truthy then renderHostView props.collective s
  else renderNoHostView props

/-- Whether a view holds the control that fires the given action. -/
def ViewItem.fires (view : List ViewItem) : UserAction → Bool
  | .closeModal => decide (ViewItem.ModalClose ∈ view)
  | .selectOption option => view.any (fun item =>
      match item with
      | .Radio radio _ => decide (radio = option)
      | _ => false)
  | .submitOwnHost _ => decide (ViewItem.CreateHostFormWithData ∈ view)
  | action => view.any (fun item =>
      match item with
      | .Button onClick _ => decide (onClick = action)
      | _ => false)

/-! ### `Host.js`: mount -/

/-- The result of `Number(…)` on a query parameter: `NaN` or a natural number. -/
inductive JsNumber where
  | NaN
  | value (n : Nat)
  deriving DecidableEq, Repr

/-- A property of the object returned by `getQueryParams()`, as far as `Number` tells its
values apart: absent, a string that spells a natural number in decimal, or a string that is
not numeric.  Signed, fractional and other numeric spellings are not ids and are outside this
type. -/
inductive QueryValue where
  | missing
  | decimal (n : Nat)
  | notNumeric (text : String)
  deriving DecidableEq, Repr

/-- JavaScript `Number(value)`: `NaN` for `undefined` and for text that is not numeric. -/
def Number : QueryValue → JsNumber
  | .missing => .NaN
  | .decimal n => .value n
  | .notNumeric _ => .NaN

/-- The query parameters that `componentDidMount` reads. -/
structure QueryParams where
  message : Option String
  CollectiveId : QueryValue
  deriving DecidableEq, Repr

/-- The calls of `changeHost` made by `componentDidMount`, in order.  `NaN` and `0` are
falsy, and `NaN !== x` holds for every `x`. -/
def componentDidMountCalls (props : HostProps) (queryParams : QueryParams) : List NewHost :=
  let HostCollectiveId := Number queryParams.CollectiveId
  if queryParams.message = some "StripeAccountConnected" then
    match HostCollectiveId with
    | .NaN => []
    | .value n =>
      if n ≠ 0 ∧ Nullable.value n ≠ getHostId props.collective then [{ id := .value n }]
      else []
  else []

/-- Source: `componentDidMount`, as the handler that runs its `changeHost` calls.  The promise
of `changeHost` is neither awaited nor returned, so the handler itself completes whatever
becomes of the mutation. -/
def componentDidMount (props : HostProps) (queryParams : QueryParams) (s : HostState) :
    Completion :=
  match componentDidMountCalls props queryParams with
  | newHost :: _ =>
    { state := (changeHost props s newHost).state
      effects := (changeHost props s newHost).effects
      result := .ok () }
  | [] => { state := s, effects := [], result := .ok () }

/-- A session in which the parent may pass new props between user actions: every step is an
action together with the props it is taken under.  The result is `none` when an action is not
on screen at its turn. -/
def runSession : HostState → List (HostProps × UserAction) → Option (HostState × List Effect)
  | s, [] => some (s, [])
  | s, (props, action) :: rest =>
    if offered props s action then
      let done := handle props s action
      (runSession done.state rest).map (fun r => (r.1, done.effects ++ r.2))
    else none

/-! ### `UpdatePaymentMethodPopUp.js`: the buttons -/

/-- A value caught by a `catch` block of the popup: the `TypeError` of reading a property of
`null`, or the reason a collaborator rejected with. -/
inductive Thrown where
  | TypeError
  | rejection (reason : String)
  deriving DecidableEq, Repr

/-- The object handed to `submitAddPaymentMethod`: the `name`, `token` and `data` picked
from the converted Stripe token. -/
structure NewPaymentMethod where
  name : String
  token : String
  data : String
  deriving DecidableEq, Repr

/-- What `stripe.createToken()` resolves to: `{ token }` or `{ error }`. -/
inductive CreateTokenResult where
  | token (token : String)
  | error (message : String)
  deriving DecidableEq, Repr

/-- The Stripe object kept in the `stripe` state cell once the card form is ready. -/
structure Stripe where
  createToken : CreateTokenResult
  deriving DecidableEq, Repr

/-- The props and imported helpers the two submit handlers use.  A mutation collaborator
resolves or rejects with a reason. -/
structure PopupProps where
  contribution : Contribution
  collectiveSlug : String
  submitUpdatePaymentMethod : Nat → Nat → Except String Unit
  submitAddPaymentMethod : NewPaymentMethod → Except String Unit
  getErrorFromGraphqlException : Thrown → String
  stripeTokenToPaymentMethod : String → NewPaymentMethod

/-- The calls the popup handlers make to their collaborators. -/
inductive PopupEffect where
  | submitUpdatePaymentMethod (orderId : Nat) (legacyId : Nat)
  | createToken
  | submitAddPaymentMethod (newPaymentMethod : NewPaymentMethod) (refetchCollectiveSlug : String)
  | createNotification (type : String) (message : Option String)
  | setShowPopup (value : Bool)
  | setMenuState (menu : String)
  deriving DecidableEq, Repr

/-- What a popup handler leaves behind: the state cells, the collaborator calls in order, and
whether the `async` handler resolved (with `false`, or with nothing) or rejected. -/
structure PopupCompletion where
  state : PopupState
  effects : List PopupEffect
  result : Except String (Option Bool)

/-- Source: `disabled={!selectedPaymentMethod}` on the Update button. -/
def updateDisabled (s : PopupState) : Bool := s.selectedPaymentMethod.isNone

/-- Source: the `onClick` of the Update button.  The radio list stores the chosen entry as
`{ value: option }`; the state cell is modelled by that option. -/
def updateOnClick (props : PopupProps) (s : PopupState) : PopupCompletion :=
  match s.selectedPaymentMethod with
  | none =>
    { state := s
      effects := [.createNotification "error"
        (some (props.getErrorFromGraphqlException .TypeError))]
      result := .ok none }
  | some selected =>
    let call := PopupEffect.submitUpdatePaymentMethod props.contribution.id
      selected.paymentMethod.id
    match props.submitUpdatePaymentMethod props.contribution.id selected.paymentMethod.id with
    | .ok _ =>
      { state := s
        effects := [call, .createNotification "update" none, .setShowPopup false]
        result := .ok none }
    | .error error =>
      let errorMsg := props.getErrorFromGraphqlException (.rejection error)
      { state := s
        effects := [call, .createNotification "error" (some errorMsg)]
        result := .ok none }

/-- Source: the `onClick` of the Cancel button next to Update. -/
def cancelOnClick (s : PopupState) : PopupCompletion :=
  { state := s, effects := [.setMenuState "mainMenu"], result := .ok none }

/-- Source: the `onClick` of the Save button; `stripe` is the `stripe` state cell. -/
def saveOnClick (props : PopupProps) (stripe : Option Stripe) (s : PopupState) :
    PopupCompletion :=
  match stripe with
  | none =>
    { state := s
      effects := [.createNotification "error" (some
        "There was a problem initializing the payment form. Please reload the page and try again")]
      result := .ok (some false) }
  | some stripe =>
    match stripe.createToken with
    | .error message =>
      { state := s
        effects := [.createToken, .createNotification "error" (some message)]
        result := .ok (some false) }
    | .token token =>
      let newPaymentMethod := props.stripeTokenToPaymentMethod token
      let call := PopupEffect.submitAddPaymentMethod newPaymentMethod props.collectiveSlug
      match props.submitAddPaymentMethod newPaymentMethod with
      | .ok _ =>
        { state := { s with showAddPaymentMethod := false }
          effects := [.createToken, call]
          result := .ok none }
      | .error error =>
        let errorMsg := props.getErrorFromGraphqlException (.rejection error)
        { state := s
          effects := [.createToken, call, .createNotification "error" (some errorMsg)]
          result := .ok none }

/-! ## Sample data

The inputs of the specification's scenarios, with the fields the scenarios leave open filled
in, and stand-ins for the abstract collaborators. -/

/-- A stand-in for the `lib/` helpers: the name of a payment method is its type, its
expiration is its expiry date, and an amount is printed with its currency. -/
def Lib.plain : Lib :=
  { getPaymentMethodName := fun pm => pm.type
    paymentMethodExpiration := fun pm => pm.expiryDate.getD ""
    formatCurrency := fun amount currency => toString amount ++ " " ++ currency }

/-- Scenario A: `{id:1, type:'creditcard', balance:500, expiryDate:'2025-01'}`. -/
def scenarioA : PaymentMethod :=
  { id := 1, type := "creditcard", balance := 500, currency := "USD",
    expiryDate := some "2025-01", collectiveId := 10 }

/-- Scenario B: `{id:2, type:'virtualcard', balance:20}`. -/
def scenarioB : PaymentMethod :=
  { id := 2, type := "virtualcard", balance := 20, currency := "USD",
    expiryDate := none, collectiveId := 10 }

/-- A third payment method: `{id:3, type:'prepaid', balance:1000}`. -/
def prepaidThree : PaymentMethod :=
  { id := 3, type := "prepaid", balance := 1000, currency := "USD",
    expiryDate := none, collectiveId := 10 }

/-- A contribution paid with the payment method of the given id. -/
def contributionPaidWith (legacyPaymentMethodId : Nat) : Contribution :=
  { id := 7, legacyPaymentMethodId := legacyPaymentMethodId }

/-- Props of the host section around a collective; the mutation collaborator succeeds. -/
def propsFor (collective : Collective) : HostProps :=
  { collective := collective
    LoggedInUser := true
    selectedOption := none
    editCollectiveMutation := fun _ _ => .ok () }

/-- Scenario C: a collective with `host: null`. -/
def scenarioC : Collective :=
  { id := 3, slug := "webpack", host := none, isActive := false, balance := 0,
    currency := "USD" }

/-- Scenario E: `host: {id: 9}`, `isActive: true`, `balance: 1500`. -/
def scenarioE : Collective :=
  { id := 3, slug := "webpack", host := some { id := 9, name := "opensource" },
    isActive := true, balance := 1500, currency := "USD" }

/-- The collective of scenario E earlier on: it has applied to host 9, the application is
pending, and it holds no money yet. -/
def scenarioEPending : Collective :=
  { scenarioE with isActive := false, balance := 0 }

/-- Props of the host section around a collective; the mutation collaborator fails. -/
def failingPropsFor (collective : Collective) : HostProps :=
  { propsFor collective with editCollectiveMutation := fun _ _ => .error "Network error" }

/-- Scenario E with the balance overdrawn: `host: {id: 9}`, `isActive: true`,
`balance: -500`. -/
def scenarioEOverdrawn : Collective :=
  { scenarioE with balance := -500 }

/-- Props of the popup for a contribution paid with payment method 1; both mutation
collaborators give the same outcome. -/
def popupPropsWith (outcome : Except String Unit) : PopupProps :=
  { contribution := contributionPaidWith 1
    collectiveSlug := "webpack"
    submitUpdatePaymentMethod := fun _ _ => outcome
    submitAddPaymentMethod := fun _ => outcome
    getErrorFromGraphqlException := fun thrown =>
      match thrown with
      | .TypeError => "TypeError"
      | .rejection reason => reason
    stripeTokenToPaymentMethod := fun token =>
      { name := "4242", token := token, data := "" } }

/-- The popup after the list of scenarios A and B arrived and the user picked `pm-2`. -/
def popupWithSelection : PopupState :=
  { (PopupState.initial.step Lib.plain (contributionPaidWith 1)
      (.paymentMethodsChanged (some [scenarioA, scenarioB]))) with
    selectedPaymentMethod := some (toPaymentOption Lib.plain scenarioB) }

/-! ## Lemmas on the runtime model -/

theorem computeMinRunLengthLoop_le (fuel : Nat) :
    ∀ n r : Nat, r ≤ 1 → computeMinRunLengthLoop fuel n r ≤ max (n + r) 64 := by
  induction fuel with
  | zero => intro n r _; simp [computeMinRunLengthLoop]
  | succ fuel ih =>
    intro n r hr
    unfold computeMinRunLengthLoop
    split
    · rename_i h
      have hr2 : r ||| (n &&& 1) ≤ 1 := by
        have h1 : n &&& 1 = n % 2 := Nat.and_one_is_mod n
        rw [h1]
        have : n % 2 < 2 := Nat.mod_lt _ (by decide)
        interval_cases r <;> interval_cases (n % 2) <;> decide
      have := ih (n >>> 1) (r ||| (n &&& 1)) hr2
      have h3 : n >>> 1 = n / 2 := by simp [Nat.shiftRight_eq_div_pow]
      rw [h3] at this ⊢
      omega
    · simp

theorem computeMinRunLength_le (n : Nat) : computeMinRunLength n ≤ n := by
  unfold computeMinRunLength
  cases n with
  | zero => simp [computeMinRunLengthLoop]
  | succ m =>
    unfold computeMinRunLengthLoop
    split
    · rename_i h64
      have hr2 : (0 ||| ((m + 1) &&& 1)) ≤ 1 := by
        have h1 : (m + 1) &&& 1 = (m + 1) % 2 := Nat.and_one_is_mod _
        rw [h1]
        have : (m + 1) % 2 < 2 := Nat.mod_lt _ (by decide)
        interval_cases ((m + 1) % 2) <;> decide
      have := computeMinRunLengthLoop_le m ((m + 1) >>> 1) _ hr2
      have h3 : (m + 1) >>> 1 = (m + 1) / 2 := by simp [Nat.shiftRight_eq_div_pow]
      rw [h3] at this ⊢
      omega
    · simp


section ArraySortLemmas

variable {α : Type}

theorem countRun_of_nonneg (cmp : α → α → Int) (hcmp : ∀ a b, 0 ≤ cmp a b) :
    ∀ (l : List α) (previousElement : α), countRun cmp false previousElement l = l.length := by
  intro l
  induction l with
  | nil => intro p; rfl
  | cons x l ih =>
    intro p
    have hx : ¬ cmp x p < 0 := not_lt.mpr (hcmp x p)
    simp [countRun, hx, ih]

theorem countAndMakeRun_of_nonneg (cmp : α → α → Int) (hcmp : ∀ a b, 0 ≤ cmp a b)
    (l : List α) : countAndMakeRun cmp l = (l.length, l) := by
  match l with
  | [] => rfl
  | [x] => rfl
  | x :: y :: rest =>
    have hx : ¬ cmp y x < 0 := not_lt.mpr (hcmp y x)
    simp [countAndMakeRun, hx, countRun_of_nonneg cmp hcmp]

theorem mergeCollapse_singleton (cmp : α → α → Int) (fuel : Nat) (run : List α) :
    mergeCollapse cmp fuel [run] = [run] := by
  cases fuel <;> simp [mergeCollapse]

theorem mergeForceCollapse_singleton (cmp : α → α → Int) (fuel : Nat) (run : List α) :
    mergeForceCollapse cmp fuel [run] = [run] := by
  cases fuel <;> simp [mergeForceCollapse]

theorem timSortLoop_nil (cmp : α → α → Int) (minRunLength fuel : Nat)
    (pendingRuns : List (List α)) :
    timSortLoop cmp minRunLength fuel pendingRuns [] = pendingRuns := by
  cases fuel <;> simp [timSortLoop]

theorem timSortLoop_of_nonneg (cmp : α → α → Int) (hcmp : ∀ a b, 0 ≤ cmp a b)
    (minRunLength fuel : Nat) (remaining : List α) (hne : remaining ≠ [])
    (hmin : minRunLength ≤ remaining.length) :
    timSortLoop cmp minRunLength (fuel + 1) [] remaining = [remaining] := by
  have hempty : remaining.isEmpty = false := by
    cases remaining with
    | nil => exact absurd rfl hne
    | cons _ _ => rfl
  have hlt : ¬ remaining.length < minRunLength := by omega
  simp [timSortLoop, hempty, countAndMakeRun_of_nonneg cmp hcmp, hlt, mergeCollapse_singleton,
    timSortLoop_nil]

/-- A comparator that never returns a negative number makes the whole array one ascending
run, so the engine returns the array as it was. -/
theorem arraySort_of_nonneg (cmp : α → α → Int) (hcmp : ∀ a b, 0 ≤ cmp a b) (array : List α) :
    arraySort cmp array = array := by
  unfold arraySort arrayTimSortImpl
  split
  · rfl
  · rename_i hlen
    obtain ⟨fuel, hfuel⟩ : ∃ fuel, array.length = fuel + 1 := ⟨array.length - 1, by omega⟩
    have hne : array ≠ [] := by
      intro h
      simp [h] at hlen
    have hloop : timSortLoop cmp (computeMinRunLength array.length) array.length [] array
        = [array] := by
      have := timSortLoop_of_nonneg cmp hcmp (computeMinRunLength array.length) fuel array hne
        (computeMinRunLength_le array.length)
      rw [← hfuel] at this
      exact this
    simp [hloop, mergeForceCollapse_singleton]

end ArraySortLemmas

/-! ### The option key is injective in the id -/

theorem digitChar_toNat (d : Nat) (h : d < 10) : (Nat.digitChar d).toNat - 48 = d := by
  interval_cases d <;> rfl

theorem toDigitsCore_decode (fuel : Nat) :
    ∀ (n : Nat) (ds : List Char), n < fuel →
      (Nat.toDigitsCore 10 fuel n ds).foldl (fun acc c => 10 * acc + (c.toNat - 48)) 0
        = ds.foldl (fun acc c => 10 * acc + (c.toNat - 48)) n := by
  induction fuel with
  | zero => intro n ds h; omega
  | succ fuel ih =>
    intro n ds h
    have hd : (Nat.digitChar (n % 10)).toNat - 48 = n % 10 :=
      digitChar_toNat _ (Nat.mod_lt _ (by decide))
    unfold Nat.toDigitsCore
    by_cases h0 : n / 10 = 0
    · simp only [h0, if_true, List.foldl_cons, hd]
      congr 1
      omega
    · simp only [h0, if_false]
      rw [ih (n / 10) _ (by omega)]
      simp only [List.foldl_cons, hd]
      congr 1
      omega

theorem toString_nat_injective (a b : Nat) (h : toString a = toString b) : a = b := by
  have h1 : Nat.toDigits 10 a = Nat.toDigits 10 b := by
    have : (Nat.toDigits 10 a).asString = (Nat.toDigits 10 b).asString := h
    exact congrArg String.data this
  have ha := toDigitsCore_decode (a + 1) a [] (by omega)
  have hb := toDigitsCore_decode (b + 1) b [] (by omega)
  unfold Nat.toDigits at h1
  rw [h1] at ha
  simp only [List.foldl_nil] at ha hb
  omega

theorem optionKey_injective (a b : Nat) (h : optionKey a = optionKey b) : a = b := by
  unfold optionKey at h
  apply toString_nat_injective
  have hd := congrArg String.data h
  rw [String.data_append, String.data_append] at hd
  exact String.ext (List.append_cancel_left hd)

/-! ### `uniqBy` keeps the first value of every key -/

section LodashLemmas

variable {α κ : Type} [DecidableEq κ]

theorem baseUniq_sublist (f : α → κ) :
    ∀ (l : List α) (seen : List κ), List.Sublist (baseUniq f seen l) l := by
  intro l
  induction l with
  | nil => intro seen; simp [baseUniq]
  | cons x l ih =>
    intro seen
    unfold baseUniq
    split
    · exact (ih seen).trans (List.sublist_cons_self x l)
    · exact (ih _).cons₂ x

theorem mem_baseUniq (f : α → κ) :
    ∀ (l : List α) (seen : List κ) (x : α), x ∈ baseUniq f seen l → x ∈ l ∧ f x ∉ seen := by
  intro l
  induction l with
  | nil => intro seen x hx; simp [baseUniq] at hx
  | cons y l ih =>
    intro seen x hx
    unfold baseUniq at hx
    split at hx
    · have := ih seen x hx
      exact ⟨List.mem_cons_of_mem _ this.1, this.2⟩
    · rename_i hy
      rcases List.mem_cons.mp hx with rfl | hx
      · exact ⟨List.mem_cons_self _ _, hy⟩
      · have := ih _ x hx
        exact ⟨List.mem_cons_of_mem _ this.1, fun h => this.2 (List.mem_cons_of_mem _ h)⟩

theorem baseUniq_nodup (f : α → κ) :
    ∀ (l : List α) (seen : List κ), ((baseUniq f seen l).map f).Nodup := by
  intro l
  induction l with
  | nil => intro seen; simp [baseUniq]
  | cons y l ih =>
    intro seen
    unfold baseUniq
    split
    · exact ih seen
    · rw [List.map_cons, List.nodup_cons]
      refine ⟨?_, ih _⟩
      intro hmem
      obtain ⟨x, hx, hfx⟩ := List.mem_map.mp hmem
      exact (mem_baseUniq f l _ x hx).2 (by simp [hfx])

theorem baseUniq_filter (f : α → κ) (k : κ) :
    ∀ (l : List α) (seen : List κ),
      (baseUniq f seen l).filter (fun x => decide (f x = k))
        = if k ∈ seen then [] else (l.find? (fun x => decide (f x = k))).toList := by
  intro l
  induction l with
  | nil => intro seen; simp [baseUniq]
  | cons y l ih =>
    intro seen
    unfold baseUniq
    by_cases hy : f y ∈ seen
    · rw [if_pos hy, ih seen]
      by_cases hk : k ∈ seen
      · simp [hk]
      · have hne : f y ≠ k := fun h => hk (h ▸ hy)
        simp [hk, List.find?_cons, hne]
    · rw [if_neg hy]
      by_cases hyk : f y = k
      · subst hyk
        simp [List.filter_cons, List.find?_cons, ih, hy]
      · by_cases hk : k ∈ seen
        · simp [List.filter_cons, hyk, ih, hk]
        · have hk2 : k ∉ f y :: seen := by
            simp [hk, Ne.symm hyk]
          simp [List.filter_cons, List.find?_cons, hyk, ih, hk, hk2]

theorem baseUniq_length_eq_iff (f : α → κ) :
    ∀ (l : List α) (seen : List κ),
      (baseUniq f seen l).length = l.length ↔ (l.map f).Nodup ∧ ∀ x ∈ l, f x ∉ seen := by
  intro l
  induction l with
  | nil => intro seen; simp [baseUniq]
  | cons y l ih =>
    intro seen
    unfold baseUniq
    by_cases hy : f y ∈ seen
    · rw [if_pos hy]
      have hle := (baseUniq_sublist f l seen).length_le
      constructor
      · intro h
        simp only [List.length_cons] at h
        omega
      · intro h
        exact absurd hy (h.2 y (List.mem_cons_self _ _))
    · rw [if_neg hy]
      simp only [List.length_cons, add_left_inj, ih, List.map_cons, List.nodup_cons,
        List.mem_cons, List.mem_map, not_or]
      constructor
      · rintro ⟨hnd, hall⟩
        refine ⟨⟨?_, hnd⟩, ?_⟩
        · rintro ⟨x, hx, hfx⟩
          exact (hall x hx).1 hfx
        · rintro x (rfl | hx)
          · exact hy
          · exact (hall x hx).2
      · rintro ⟨⟨hnot, hnd⟩, hall⟩
        refine ⟨hnd, fun x hx => ⟨?_, hall x (Or.inr hx)⟩⟩
        intro hfx
        exact hnot ⟨x, hx, hfx⟩

theorem uniqBy_sublist (f : α → κ) (l : List α) : List.Sublist (uniqBy f l) l :=
  baseUniq_sublist f l []

theorem uniqBy_nodup (f : α → κ) (l : List α) : ((uniqBy f l).map f).Nodup :=
  baseUniq_nodup f l []

theorem uniqBy_filter (f : α → κ) (k : κ) (l : List α) :
    (uniqBy f l).filter (fun x => decide (f x = k))
      = (l.find? (fun x => decide (f x = k))).toList := by
  simp [uniqBy, baseUniq_filter]

theorem uniqBy_length_eq_iff (f : α → κ) (l : List α) :
    (uniqBy f l).length = l.length ↔ (l.map f).Nodup := by
  simp [uniqBy, baseUniq_length_eq_iff]

end LodashLemmas

/-! ## The payment-method popup -/

theorem matchesContributionComparator_nonneg (contribution : Contribution)
    (a b : PaymentOption) : 0 ≤ matchesContributionComparator contribution a b := by
  unfold matchesContributionComparator
  split <;> decide

/-- With the comparator of the popup the sort returns its input, so the memo is `map` followed
by `uniqBy`. -/
theorem paymentOptions_eq_uniquePMs (lib : Lib) (contribution : Contribution)
    (paymentMethods : List PaymentMethod) :
    paymentOptions lib contribution (some paymentMethods)
      = some (uniquePMs lib paymentMethods) := by
  simp only [paymentOptions, uniquePMs]
  rw [arraySort_of_nonneg _ (matchesContributionComparator_nonneg contribution)]

theorem mem_uniquePMs (lib : Lib) (paymentMethods : List PaymentMethod) (option : PaymentOption)
    (h : option ∈ uniquePMs lib paymentMethods) :
    ∃ pm ∈ paymentMethods, option = toPaymentOption lib pm := by
  have hmem := (uniqBy_sublist (fun o : PaymentOption => o.key) _).subset h
  obtain ⟨pm, hpm, rfl⟩ := List.mem_map.mp hmem
  exact ⟨pm, hpm, rfl⟩

theorem head?_filter_eq_find? {α : Type} (p : α → Bool) (l : List α) :
    (l.filter p).head? = l.find? p := by
  induction l with
  | nil => rfl
  | cons x l ih =>
    by_cases hx : p x = true
    · simp [List.filter_cons, List.find?_cons, hx]
    · simp [List.filter_cons, List.find?_cons, hx, ih]

/-- C1, at the input `[{id:1,…}, {id:2,…}]` with `legacyPaymentMethodId = 2`: a record of the
list has the contribution's id, yet the option at index 0 of `paymentOptions` is the one with
id 1, because the engine leaves the array in its order when the comparator never returns a
negative number. -/
theorem paymentOptions_match_not_on_top :
    (∃ pm ∈ [scenarioA, scenarioB], pm.id = (contributionPaidWith 2).legacyPaymentMethodId) ∧
    paymentOptions Lib.plain (contributionPaidWith 2) (some [scenarioA, scenarioB])
      = some [toPaymentOption Lib.plain scenarioA, toPaymentOption Lib.plain scenarioB] ∧
    ((paymentOptions Lib.plain (contributionPaidWith 2) (some [scenarioA, scenarioB])).bind
      (fun options => options.head?)).map (fun option => option.id) = some 1 := by
  decide

/-- The option at index 0 of `paymentOptions` is built from the first record of the input,
whatever the contribution. -/
theorem paymentOptions_head (lib : Lib) (contribution : Contribution) (pm : PaymentMethod)
    (rest : List PaymentMethod) :
    (paymentOptions lib contribution (some (pm :: rest))).map (fun options => options.head?)
      = some (some (toPaymentOption lib pm)) := by
  rw [paymentOptions_eq_uniquePMs]
  simp [uniquePMs, uniqBy, baseUniq]

/-- On V8 from 7.0 on the sort step returns the deduplicated list as it is. -/
theorem paymentOptionsWith_arraySort (lib : Lib) (contribution : Contribution)
    (paymentMethods : Option (List PaymentMethod)) :
    paymentOptionsWith arraySort lib contribution paymentMethods
      = paymentOptions lib contribution paymentMethods := by
  cases paymentMethods <;> rfl

/-- C2, at the input `[{id:1,…}, {id:2,…}, {id:3,…}]` with `legacyPaymentMethodId = 3` on an
engine that sorts short arrays by insertion (V8 before 7.0): the deduplicated list is
`[pm-1, pm-2, pm-3]`, the output is `[pm-3, pm-2, pm-1]`, so the two options that do not match
the contribution come out in the opposite order; and with `legacyPaymentMethodId = 5`, which no
record has, the output `[pm-3, pm-2, pm-1]` is not the deduplicated list. -/
theorem paymentOptions_insertion_engine_reorders :
    [scenarioA, scenarioB, prepaidThree].length ≤ 10 ∧
    uniquePMs Lib.plain [scenarioA, scenarioB, prepaidThree]
      = [toPaymentOption Lib.plain scenarioA, toPaymentOption Lib.plain scenarioB,
          toPaymentOption Lib.plain prepaidThree] ∧
    paymentOptionsWith insertionSort Lib.plain (contributionPaidWith 3)
        (some [scenarioA, scenarioB, prepaidThree])
      = some [toPaymentOption Lib.plain prepaidThree, toPaymentOption Lib.plain scenarioB,
          toPaymentOption Lib.plain scenarioA] ∧
    (uniquePMs Lib.plain [scenarioA, scenarioB, prepaidThree]).filter
        (fun option => decide (option.id ≠ (contributionPaidWith 3).legacyPaymentMethodId))
      = [toPaymentOption Lib.plain scenarioA, toPaymentOption Lib.plain scenarioB] ∧
    (paymentOptionsWith insertionSort Lib.plain (contributionPaidWith 3)
        (some [scenarioA, scenarioB, prepaidThree])).map
        (fun options => options.filter
          (fun option => decide (option.id ≠ (contributionPaidWith 3).legacyPaymentMethodId)))
      = some [toPaymentOption Lib.plain scenarioB, toPaymentOption Lib.plain scenarioA] ∧
    (∀ pm ∈ [scenarioA, scenarioB, prepaidThree],
      pm.id ≠ (contributionPaidWith 5).legacyPaymentMethodId) ∧
    paymentOptionsWith insertionSort Lib.plain (contributionPaidWith 5)
        (some [scenarioA, scenarioB, prepaidThree])
      = some [toPaymentOption Lib.plain prepaidThree, toPaymentOption Lib.plain scenarioB,
          toPaymentOption Lib.plain scenarioA] := by
  decide

/-- C3: for a non-null list the memo returns a list that is at most as long as the input, and
exactly as long if and only if the keys `pm-<id>` of the input records are pairwise
distinct. -/
theorem paymentOptions_length (lib : Lib) (contribution : Contribution)
    (paymentMethods : List PaymentMethod) :
    ∃ options, paymentOptions lib contribution (some paymentMethods) = some options ∧
      options.length ≤ paymentMethods.length ∧
      (options.length = paymentMethods.length ↔
        (paymentMethods.map (fun pm => optionKey pm.id)).Nodup) := by
  refine ⟨uniquePMs lib paymentMethods, paymentOptions_eq_uniquePMs lib contribution _, ?_, ?_⟩
  · have := (uniqBy_sublist (fun o : PaymentOption => o.key)
      (paymentMethods.map (toPaymentOption lib))).length_le
    simpa [uniquePMs] using this
  · have := uniqBy_length_eq_iff (fun o : PaymentOption => o.key)
      (paymentMethods.map (toPaymentOption lib))
    simp only [List.length_map, List.map_map] at this
    exact this

/-- C4: the output has pairwise distinct keys; for every id, the options carrying the key
`pm-<id>` are exactly the option built from the first input record with that id when there is
one, and none otherwise; and at most one option has the contribution's id. -/
theorem paymentOptions_first_wins (lib : Lib) (contribution : Contribution)
    (paymentMethods : List PaymentMethod) :
    ∃ options, paymentOptions lib contribution (some paymentMethods) = some options ∧
      (options.map (fun option => option.key)).Nodup ∧
      (∀ id : Nat, options.filter (fun option => decide (option.key = optionKey id))
        = ((paymentMethods.find? (fun pm => decide (pm.id = id))).map
            (toPaymentOption lib)).toList) ∧
      (options.filter
        (fun option => decide (option.id = contribution.legacyPaymentMethodId))).length ≤ 1 := by
  have hkey : ∀ id : Nat,
      (uniquePMs lib paymentMethods).filter (fun option => decide (option.key = optionKey id))
        = ((paymentMethods.find? (fun pm => decide (pm.id = id))).map
            (toPaymentOption lib)).toList := by
    intro id
    unfold uniquePMs
    rw [uniqBy_filter, List.find?_map]
    have hfun : ((fun x : PaymentOption => decide (x.key = optionKey id)) ∘ toPaymentOption lib)
        = fun pm => decide (pm.id = id) := by
      funext pm
      simp only [Function.comp, toPaymentOption]
      by_cases h : pm.id = id
      · simp [h]
      · have : optionKey pm.id ≠ optionKey id := fun hk => h (optionKey_injective _ _ hk)
        simp [h, this]
    rw [hfun]
  refine ⟨uniquePMs lib paymentMethods, paymentOptions_eq_uniquePMs lib contribution _,
    uniqBy_nodup _ _, hkey, ?_⟩
  have hid : (uniquePMs lib paymentMethods).filter
        (fun option => decide (option.id = contribution.legacyPaymentMethodId))
      = (uniquePMs lib paymentMethods).filter
        (fun option => decide (option.key = optionKey contribution.legacyPaymentMethodId)) := by
    apply List.filter_congr
    intro option hmem
    obtain ⟨pm, _, rfl⟩ := mem_uniquePMs lib paymentMethods option hmem
    simp only [toPaymentOption]
    by_cases h : pm.id = contribution.legacyPaymentMethodId
    · simp [h]
    · have : optionKey pm.id ≠ optionKey contribution.legacyPaymentMethodId :=
        fun hk => h (optionKey_injective _ _ hk)
      simp [h, this]
  rw [hid, hkey]
  cases (paymentMethods.find? (fun pm => decide (pm.id = contribution.legacyPaymentMethodId)))
    <;> simp

/-- C5: every option of the output is disabled exactly when the balance of its payment method
is below 50, for every type of payment method. -/
theorem paymentOptions_disabled_iff (lib : Lib) (contribution : Contribution)
    (paymentMethods : List PaymentMethod) (options : List PaymentOption)
    (hoptions : paymentOptions lib contribution (some paymentMethods) = some options)
    (option : PaymentOption) (hmem : option ∈ options) :
    option.disabled = true ↔ option.paymentMethod.balance < 50 := by
  rw [paymentOptions_eq_uniquePMs] at hoptions
  cases hoptions
  obtain ⟨pm, _, rfl⟩ := mem_uniquePMs lib paymentMethods option hmem
  simp [toPaymentOption, minBalance]

/-- Witness of C5: a virtual card with balance 20 is disabled, a credit card with balance 500
is not. -/
theorem paymentOptions_disabled_iff_witness :
    ((toPaymentOption Lib.plain scenarioB).disabled = true ↔
      (toPaymentOption Lib.plain scenarioB).paymentMethod.balance < 50) ∧
    ((toPaymentOption Lib.plain scenarioA).disabled = true ↔
      (toPaymentOption Lib.plain scenarioA).paymentMethod.balance < 50) ∧
    (toPaymentOption Lib.plain scenarioB).disabled = true ∧
    (toPaymentOption Lib.plain scenarioA).disabled = false :=
  ⟨paymentOptions_disabled_iff Lib.plain (contributionPaidWith 1) [scenarioA, scenarioB]
      [toPaymentOption Lib.plain scenarioA, toPaymentOption Lib.plain scenarioB] (by decide)
      (toPaymentOption Lib.plain scenarioB) (by decide),
    paymentOptions_disabled_iff Lib.plain (contributionPaidWith 1) [scenarioA, scenarioB]
      [toPaymentOption Lib.plain scenarioA, toPaymentOption Lib.plain scenarioB] (by decide)
      (toPaymentOption Lib.plain scenarioA) (by decide),
    by decide, by decide⟩

/-- C6: `getPaymentMethodMetadata` follows the subtitle table.  A credit card gets the
expires-on message; a virtual card gets the unusable-balance message below a balance of 50,
the balance-and-expiry message from 50 on with an expiry date, and the balance-left message
from 50 on without one; prepaid and collective get the balance-left message; any other type
gets no subtitle. -/
theorem getPaymentMethodMetadata_table (lib : Lib) (pm : PaymentMethod) :
    (pm.type = "creditcard" →
      getPaymentMethodMetadata lib pm
        = some (expiresOnMessage (lib.paymentMethodExpiration pm))) ∧
    (pm.type = "virtualcard" → pm.balance < 50 →
      getPaymentMethodMetadata lib pm
        = some (unusableBalanceMessage (lib.formatCurrency pm.balance pm.currency)
            (lib.formatCurrency 50 pm.currency))) ∧
    (pm.type = "virtualcard" → 50 ≤ pm.balance →
      ∀ expiryDate, pm.expiryDate = some expiryDate →
        getPaymentMethodMetadata lib pm
          = some (balanceAndExpiryMessage expiryDate
              (lib.formatCurrency pm.balance pm.currency))) ∧
    (pm.type = "virtualcard" → 50 ≤ pm.balance → pm.expiryDate = none →
      getPaymentMethodMetadata lib pm
        = some (balanceLeftMessage (lib.formatCurrency pm.balance pm.currency))) ∧
    (pm.type = "prepaid" ∨ pm.type = "collective" →
      getPaymentMethodMetadata lib pm
        = some (balanceLeftMessage (lib.formatCurrency pm.balance pm.currency))) ∧
    (pm.type ≠ "creditcard" → pm.type ≠ "virtualcard" → pm.type ≠ "prepaid" →
      pm.type ≠ "collective" → getPaymentMethodMetadata lib pm = none) := by
  refine ⟨?_, ?_, ?_, ?_, ?_, ?_⟩
  · intro h
    simp [getPaymentMethodMetadata, h]
  · intro h hlt
    simp [getPaymentMethodMetadata, h, minBalance, hlt]
  · intro h hle expiryDate he
    have : ¬ pm.balance < 50 := not_lt.mpr hle
    simp [getPaymentMethodMetadata, h, minBalance, this, he]
  · intro h hle he
    have : ¬ pm.balance < 50 := not_lt.mpr hle
    simp [getPaymentMethodMetadata, h, minBalance, this, he]
  · rintro (h | h) <;> simp [getPaymentMethodMetadata, h]
  · intro h1 h2 h3 h4
    simp [getPaymentMethodMetadata, h1, h2, h3, h4]

/-- Witness of C6, scenario B: a virtual card with balance 20 gets the message that a balance
below the minimum cannot be used. -/
theorem getPaymentMethodMetadata_table_witness :
    getPaymentMethodMetadata Lib.plain scenarioB
      = some (unusableBalanceMessage "20 USD" "50 USD") :=
  (getPaymentMethodMetadata_table Lib.plain scenarioB).2.1 (by decide) (by decide)

/-- C7: the value the effect stores is the first option of the list whose id is the
contribution's `legacyPaymentMethodId`, and there is none exactly when no option has that id.
For the input `[{id:1, type:'creditcard', balance:500}]` and legacy id 1 it is the only
option of the list, with key `pm-1`. -/
theorem resolveDefault_first_match :
    (∀ (contribution : Contribution) (options : List PaymentOption),
      resolveDefault contribution options
        = options.find? (fun option => decide (option.id = contribution.legacyPaymentMethodId)) ∧
      (resolveDefault contribution options = none ↔
        ∀ option ∈ options, option.id ≠ contribution.legacyPaymentMethodId)) ∧
    (∀ (lib : Lib) (contributionId : Nat) (currency : String) (expiryDate : Option String)
        (collectiveId : Nat),
      let pm : PaymentMethod :=
        { id := 1, type := "creditcard", balance := 500, currency := currency,
          expiryDate := expiryDate, collectiveId := collectiveId }
      let contribution : Contribution := { id := contributionId, legacyPaymentMethodId := 1 }
      paymentOptions lib contribution (some [pm]) = some [toPaymentOption lib pm] ∧
      resolveDefault contribution [toPaymentOption lib pm] = some (toPaymentOption lib pm) ∧
      (toPaymentOption lib pm).key = "pm-1") := by
  refine ⟨fun contribution options => ⟨?_, ?_⟩, ?_⟩
  · simp [resolveDefault, first, head?_filter_eq_find?]
  · simp [resolveDefault, first, head?_filter_eq_find?]
  · intro lib contributionId currency expiryDate collectiveId
    refine ⟨?_, ?_, ?_⟩
    · rw [paymentOptions_eq_uniquePMs]
      simp [uniquePMs, uniqBy, baseUniq]
    · simp [resolveDefault, first, toPaymentOption]
    · simp only [toPaymentOption]
      decide

theorem step_defaultPaymentMethod_of_ne_null (lib : Lib) (contribution : Contribution)
    (s : PopupState) (hset : s.defaultPaymentMethod ≠ .null) (event : PopupEvent) :
    (s.step lib contribution event).defaultPaymentMethod = s.defaultPaymentMethod := by
  cases event with
  | paymentMethodsChanged paymentMethods =>
    simp only [PopupState.step, defaultPaymentMethodEffect]
    split
    · rw [if_neg hset]
    · rfl
  | select option => rfl
  | openAddPaymentMethod => rfl
  | cancelAddPaymentMethod => rfl

theorem run_defaultPaymentMethod_of_ne_null (lib : Lib) (contribution : Contribution)
    (events : List PopupEvent) :
    ∀ s : PopupState, s.defaultPaymentMethod ≠ .null →
      (s.run lib contribution events).defaultPaymentMethod = s.defaultPaymentMethod := by
  induction events with
  | nil => intro s _; rfl
  | cons event events ih =>
    intro s hset
    have hstep := step_defaultPaymentMethod_of_ne_null lib contribution s hset event
    have := ih (s.step lib contribution event) (by rw [hstep]; exact hset)
    simp only [PopupState.run, List.foldl_cons] at this ⊢
    rw [this, hstep]

/-- C8, as stated, fails: after a first list without the contribution's payment method the
stored value is `undefined`; a second, different list that contains it leaves the stored value
`undefined`, although the option resolved from the new list is `pm-2`. -/
theorem defaultPaymentMethod_stale_after_second_list :
    (PopupState.initial.run Lib.plain (contributionPaidWith 2)
        [.paymentMethodsChanged (some [scenarioA])]).paymentOptions
      ≠ (PopupState.initial.run Lib.plain (contributionPaidWith 2)
        [.paymentMethodsChanged (some [scenarioA]),
          .paymentMethodsChanged (some [scenarioA, scenarioB])]).paymentOptions ∧
    (PopupState.initial.run Lib.plain (contributionPaidWith 2)
        [.paymentMethodsChanged (some [scenarioA]),
          .paymentMethodsChanged (some [scenarioA, scenarioB])]).defaultPaymentMethod
      = .undefined ∧
    ((PopupState.initial.run Lib.plain (contributionPaidWith 2)
        [.paymentMethodsChanged (some [scenarioA]),
          .paymentMethodsChanged (some [scenarioA, scenarioB])]).paymentOptions.map
        (resolveDefault (contributionPaidWith 2)))
      = some (some (toPaymentOption Lib.plain scenarioB)) := by
  decide

/-- C8, amended: the default is resolved once, from the first non-null options list.  While
the stored default is still `null`, a step that delivers a non-null list stores the default
resolved from that list (`undefined` when no option matches); the stored value is then no
longer `null`, and from a state whose default is not `null` no sequence of steps, whether
they change the options list or the selection, changes it.  A selection step never changes
it. -/
theorem defaultPaymentMethod_resolved_once (lib : Lib) (contribution : Contribution)
    (s : PopupState) (paymentMethods : List PaymentMethod)
    (hnull : s.defaultPaymentMethod = .null) :
    (∃ options, paymentOptions lib contribution (some paymentMethods) = some options ∧
      (s.step lib contribution (.paymentMethodsChanged (some paymentMethods))).paymentOptions
        = some options ∧
      (s.step lib contribution (.paymentMethodsChanged (some paymentMethods))).defaultPaymentMethod
        = Nullable.ofFirst (resolveDefault contribution options)) ∧
    (∀ events : List PopupEvent,
      ((s.step lib contribution (.paymentMethodsChanged (some paymentMethods))).run lib
          contribution events).defaultPaymentMethod
        = (s.step lib contribution
            (.paymentMethodsChanged (some paymentMethods))).defaultPaymentMethod) ∧
    (∀ option : PaymentOption,
      (s.step lib contribution (.select option)).defaultPaymentMethod
        = s.defaultPaymentMethod) := by
  have hstep : (s.step lib contribution
        (.paymentMethodsChanged (some paymentMethods))).defaultPaymentMethod
      = Nullable.ofFirst (resolveDefault contribution (uniquePMs lib paymentMethods)) := by
    simp [PopupState.step, defaultPaymentMethodEffect, paymentOptions_eq_uniquePMs, hnull]
  refine ⟨⟨uniquePMs lib paymentMethods, paymentOptions_eq_uniquePMs lib contribution _, ?_,
    hstep⟩, ?_, fun _ => rfl⟩
  · simp [PopupState.step, defaultPaymentMethodEffect, paymentOptions_eq_uniquePMs, hnull]
  · intro events
    apply run_defaultPaymentMethod_of_ne_null
    rw [hstep]
    cases resolveDefault contribution (uniquePMs lib paymentMethods) <;>
      simp [Nullable.ofFirst]

/-- Witness of C8 amended: from the initial state, the list of scenario A resolves the stored
value to its option `pm-1`. -/
theorem defaultPaymentMethod_resolved_once_witness :
    (PopupState.initial.step Lib.plain (contributionPaidWith 1)
        (.paymentMethodsChanged (some [scenarioA]))).defaultPaymentMethod
      = .value (toPaymentOption Lib.plain scenarioA) := by
  obtain ⟨⟨options, hoptions, _, hdefault⟩, _, _⟩ :=
    defaultPaymentMethod_resolved_once Lib.plain (contributionPaidWith 1) PopupState.initial
      [scenarioA] rfl
  have hlist : options = [toPaymentOption Lib.plain scenarioA] := by
    have : paymentOptions Lib.plain (contributionPaidWith 1) (some [scenarioA])
        = some [toPaymentOption Lib.plain scenarioA] := by decide
    rw [this] at hoptions
    exact (Option.some.inj hoptions).symm
  rw [hdefault, hlist]
  decide

/-! ## The host section -/

/-- C9, as stated, fails in the no-host state: there `get(collective, 'host.id')` is
`undefined`, the default argument of `changeHost()` carries `id: null`, the strict comparison
tells them apart, and the mutation and the route push are issued. -/
theorem changeHost_default_argument_without_host :
    getHostId scenarioC = .undefined ∧
    NewHost.default.id = .null ∧
    (changeHost (propsFor scenarioC) HostState.initial NewHost.default).effects
      = [.editCollectiveMutation 3 .null,
          .pushRoute "editCollective" "webpack" "host" "noHost"] := by
  decide

/-- C9, amended: whenever the requested id is strictly equal to `get(collective, 'host.id')`,
which for a collective with a pending or active host means a request carrying that host's id,
`changeHost` closes the modal, calls no mutation, pushes no route and completes. -/
theorem changeHost_same_host (props : HostProps) (s : HostState) (newHost : NewHost)
    (hsame : newHost.id = getHostId props.collective) :
    (changeHost props s newHost).effects = [] ∧
    (changeHost props s newHost).state = { s with showModal := false } ∧
    (changeHost props s newHost).result = .ok () := by
  refine ⟨?_, ?_, ?_⟩ <;> simp [changeHost, hsame]

/-- Witness of C9 amended: the collective of scenario E, hosted by 9, and a request for
host 9. -/
theorem changeHost_same_host_witness :
    (changeHost (propsFor scenarioE) { showModal := true, action := "Remove" }
        { id := .value 9 }).effects = [] :=
  (changeHost_same_host (propsFor scenarioE) { showModal := true, action := "Remove" }
    { id := .value 9 } (by decide)).1

/-- A session under props that never change is a run of `runActions`. -/
theorem runSession_fixed_props (props : HostProps) (actions : List UserAction) :
    ∀ s : HostState,
      runSession s (actions.map (fun action => (props, action))) = runActions props s actions := by
  induction actions with
  | nil => intro s; rfl
  | cons action rest ih =>
    intro s
    simp only [List.map_cons, runSession, runActions, ih]

/-- The remove button is on screen only for an active collective with a balance of zero. -/
theorem offered_clickRemove (props : HostProps) (s : HostState)
    (hoffered : offered props s .clickRemove = true) :
    props.collective.isActive = true ∧ props.collective.balance = 0 := by
  by_cases hhost : (getHostId props.collective).truthy = true
  · simpa [offered, hhost] using hoffered
  · simp [offered, hhost] at hoffered

/-- C10, at the session that presses the withdraw button while the application to host 9 is
pending and, after the parent has passed the collective of scenario E (host 9, active, balance
1500), presses the continue button of the modal that is still open: the remove button is not
on screen, the continue button is, and pressing it issues `editCollectiveMutation` with
`HostCollectiveId: null`, because `changeHost` does not look at the balance. -/
theorem removal_dispatched_with_balance :
    scenarioE.host = some { id := 9, name := "opensource" } ∧
    scenarioE.isActive = true ∧ scenarioE.balance = 1500 ∧
    offered (propsFor scenarioE) { showModal := true, action := "Withdraw" } .clickRemove
      = false ∧
    offered (propsFor scenarioE) { showModal := true, action := "Withdraw" } .confirm = true ∧
    runSession HostState.initial
        [(propsFor scenarioEPending, .clickWithdraw), (propsFor scenarioE, .confirm)]
      = some ({ showModal := false, action := "Withdraw" },
          [.editCollectiveMutation 3 .null,
            .pushRoute "editCollective" "webpack" "host" "noHost"]) := by
  decide

/-! ### What the host view shows -/

theorem fires_renderHostView (collective : Collective) (s : HostState) (action : UserAction) :
    ViewItem.fires (renderHostView collective s) action
      = (match action with
        | .clickWithdraw => !collective.isActive
        | .clickRemove => collective.isActive && decide (collective.balance = 0)
        | .closeModal => s.showModal
        | .cancel => s.showModal
        | .confirm => s.showModal
        | _ => false) := by
  cases hactive : collective.isActive <;> cases hshow : s.showModal <;>
    by_cases hzero : collective.balance = 0 <;>
    by_cases hpos : 0 < collective.balance <;>
    cases action <;>
    simp [renderHostView, renderModal, ViewItem.fires, hactive, hshow, hzero, hpos]

theorem fires_renderNoHostView (props : HostProps) (action : UserAction) :
    ViewItem.fires (renderNoHostView props) action
      = (match action with
        | .selectOption option => decide (option ∈ ["noHost", "ownHost", "findHost"])
        | .submitOwnHost _ =>
          decide (props.selectedOption.getD "noHost" = "ownHost") && props.LoggedInUser
        | _ => false) := by
  simp only [renderNoHostView]
  generalize props.selectedOption.getD "noHost" = selectedOption
  have hsplit : selectedOption = "ownHost" ∨ selectedOption = "findHost" ∨
      (selectedOption ≠ "ownHost" ∧ selectedOption ≠ "findHost") := by
    by_cases h1 : selectedOption = "ownHost"
    · exact Or.inl h1
    · by_cases h2 : selectedOption = "findHost"
      · exact Or.inr (Or.inl h2)
      · exact Or.inr (Or.inr ⟨h1, h2⟩)
  cases action with
  | selectOption option =>
    simp only [ViewItem.fires, List.any_append, List.any_cons, List.any_nil]
    have hradios : decide (option ∈ ["noHost", "ownHost", "findHost"])
        = (decide ("noHost" = option) || decide ("ownHost" = option)
            || decide ("findHost" = option)) := by
      by_cases h1 : option = "noHost"
      · subst h1; simp
      · by_cases h2 : option = "ownHost"
        · subst h2; simp
        · by_cases h3 : option = "findHost"
          · subst h3; simp
          · have e1 : ¬ "noHost" = option := fun h => h1 h.symm
            have e2 : ¬ "ownHost" = option := fun h => h2 h.symm
            have e3 : ¬ "findHost" = option := fun h => h3 h.symm
            simp [h1, h2, h3, e1, e2, e3]
    rw [hradios]
    rcases hsplit with h | h | ⟨h1, h2⟩
    · subst h; cases props.LoggedInUser <;> simp
    · subst h; cases props.LoggedInUser <;> simp
    · cases props.LoggedInUser <;> simp [h1, h2]
  | submitOwnHost hostCollective =>
    rcases hsplit with h | h | ⟨h1, h2⟩
    · subst h; cases props.LoggedInUser <;> simp [ViewItem.fires]
    · subst h; cases props.LoggedInUser <;> simp [ViewItem.fires]
    · cases props.LoggedInUser <;> simp [ViewItem.fires, h1, h2]
  | clickWithdraw =>
    rcases hsplit with h | h | ⟨h1, h2⟩
    · subst h; cases props.LoggedInUser <;> simp [ViewItem.fires]
    · subst h; cases props.LoggedInUser <;> simp [ViewItem.fires]
    · cases props.LoggedInUser <;> simp [ViewItem.fires, h1, h2]
  | clickRemove =>
    rcases hsplit with h | h | ⟨h1, h2⟩
    · subst h; cases props.LoggedInUser <;> simp [ViewItem.fires]
    · subst h; cases props.LoggedInUser <;> simp [ViewItem.fires]
    · cases props.LoggedInUser <;> simp [ViewItem.fires, h1, h2]
  | closeModal =>
    rcases hsplit with h | h | ⟨h1, h2⟩
    · subst h; cases props.LoggedInUser <;> simp [ViewItem.fires]
    · subst h; cases props.LoggedInUser <;> simp [ViewItem.fires]
    · cases props.LoggedInUser <;> simp [ViewItem.fires, h1, h2]
  | cancel =>
    rcases hsplit with h | h | ⟨h1, h2⟩
    · subst h; cases props.LoggedInUser <;> simp [ViewItem.fires]
    · subst h; cases props.LoggedInUser <;> simp [ViewItem.fires]
    · cases props.LoggedInUser <;> simp [ViewItem.fires, h1, h2]
  | confirm =>
    rcases hsplit with h | h | ⟨h1, h2⟩
    · subst h; cases props.LoggedInUser <;> simp [ViewItem.fires]
    · subst h; cases props.LoggedInUser <;> simp [ViewItem.fires]
    · cases props.LoggedInUser <;> simp [ViewItem.fires, h1, h2]

/-- The controls counted as on screen by `offered` are those that `render` puts into the
view. -/
theorem offered_eq_fires (props : HostProps) (s : HostState) (action : UserAction) :
    offered props s action = ViewItem.fires (render props s) action := by
  unfold offered render
  by_cases hhost : (getHostId props.collective).truthy = true
  · simp only [hhost, if_true, fires_renderHostView]
  · simp only [hhost, Bool.false_eq_true, if_false, fires_renderNoHostView]

/-- With an active host and a positive balance the view holds the message that the balance
must be emptied first, and no remove button. -/
theorem render_positive_balance (props : HostProps) (s : HostState)
    (hhost : (getHostId props.collective).truthy = true)
    (hactive : props.collective.isActive = true) (hpos : 0 < props.collective.balance) :
    ViewItem.message "editCollective.host.change.balanceNotEmpty" ∈ render props s ∧
    ViewItem.fires (render props s) .clickRemove = false := by
  have hne : props.collective.balance ≠ 0 := ne_of_gt hpos
  refine ⟨?_, ?_⟩
  · simp [render, hhost, renderHostView, hactive, hpos]
  · rw [← offered_eq_fires]
    simp [offered, hhost, hactive, hne]

/-- With an active host and a negative balance the view is the host card and the host label,
followed by the modal: no message about the balance, no remove button. -/
theorem render_negative_balance (props : HostProps) (s : HostState)
    (hhost : (getHostId props.collective).truthy = true)
    (hactive : props.collective.isActive = true) (hneg : props.collective.balance < 0) :
    render props s
      = [ViewItem.CollectiveCard, .message "editCollective.host.label"] ++ renderModal s := by
  have hne : props.collective.balance ≠ 0 := ne_of_lt hneg
  have hpos : ¬ 0 < props.collective.balance := not_lt.mpr (le_of_lt hneg)
  simp [render, hhost, renderHostView, hactive, hpos, hne]

/-- C11, at the input `host: {id: 9}`, `isActive: true`, `balance: -500`: the collective has
an active host and a balance other than zero, and the view holds neither the message that the
balance must be emptied first nor the remove button; it shows the host card and the host
label only. -/
theorem render_overdrawn_silent :
    scenarioEOverdrawn.isActive = true ∧ scenarioEOverdrawn.balance ≠ 0 ∧
    ViewItem.message "editCollective.host.change.balanceNotEmpty"
      ∉ render (propsFor scenarioEOverdrawn) HostState.initial ∧
    ViewItem.fires (render (propsFor scenarioEOverdrawn) HostState.initial) .clickRemove
      = false ∧
    render (propsFor scenarioEOverdrawn) HostState.initial
      = [.CollectiveCard, .message "editCollective.host.label"] := by
  decide

/-! ### Mount -/

theorem componentDidMountCalls_eq_iff (props : HostProps) (queryParams : QueryParams)
    (n : Nat) :
    componentDidMountCalls props queryParams = [{ id := .value n }] ↔
      (queryParams.message = some "StripeAccountConnected" ∧
        Number queryParams.CollectiveId = .value n ∧ n ≠ 0 ∧
        Nullable.value n ≠ getHostId props.collective) := by
  unfold componentDidMountCalls
  by_cases hmsg : queryParams.message = some "StripeAccountConnected"
  · simp only [hmsg, if_true, true_and]
    cases hnum : Number queryParams.CollectiveId with
    | NaN => simp
    | value m =>
      by_cases hcond : m ≠ 0 ∧ Nullable.value m ≠ getHostId props.collective
      · simp only [if_pos hcond]
        constructor
        · intro h
          have hm : m = n := by simpa using h
          subst hm
          exact ⟨rfl, hcond⟩
        · rintro ⟨h, _⟩
          have hm : m = n := by simpa using h
          subst hm
          rfl
      · simp only [if_neg hcond]
        constructor
        · intro h; simp at h
        · rintro ⟨h, h0, hne⟩
          have hm : m = n := by simpa using h
          subst hm
          exact absurd ⟨h0, hne⟩ hcond
  · simp [hmsg]

theorem componentDidMountCalls_cases (props : HostProps) (queryParams : QueryParams) :
    componentDidMountCalls props queryParams = [] ∨
      ∃ n, componentDidMountCalls props queryParams = [{ id := .value n }] := by
  unfold componentDidMountCalls
  by_cases hmsg : queryParams.message = some "StripeAccountConnected"
  · simp only [hmsg, if_true]
    cases hnum : Number queryParams.CollectiveId with
    | NaN => exact Or.inl rfl
    | value m =>
      by_cases hcond : m ≠ 0 ∧ Nullable.value m ≠ getHostId props.collective
      · exact Or.inr ⟨m, by simp only [if_pos hcond]⟩
      · exact Or.inl (by simp only [if_neg hcond])
  · exact Or.inl (by simp only [if_neg hmsg])

/-- C12: at mount `changeHost({id: H})` is called, once, exactly when the message is
`StripeAccountConnected` and `H = Number(queryParams.CollectiveId)` is a number other than 0
that differs from the current host id; the call then issues the mutation for `H` once and
nothing else.  Otherwise (another message, a missing or non-numeric `CollectiveId`, the
value 0, or `H` equal to the current host id) there is no call, nothing is dispatched and the
local state is as it was. -/
theorem componentDidMount_trigger (props : HostProps) (queryParams : QueryParams)
    (s : HostState) :
    (∀ n : Nat, componentDidMountCalls props queryParams = [{ id := .value n }] ↔
      (queryParams.message = some "StripeAccountConnected" ∧
        Number queryParams.CollectiveId = .value n ∧ n ≠ 0 ∧
        Nullable.value n ≠ getHostId props.collective)) ∧
    (componentDidMountCalls props queryParams = [] ∨
      ∃ n, componentDidMountCalls props queryParams = [{ id := .value n }]) ∧
    (∀ n : Nat, componentDidMountCalls props queryParams = [{ id := .value n }] →
      (componentDidMount props queryParams s).effects
        = [.editCollectiveMutation props.collective.id (.value n)]) ∧
    (componentDidMountCalls props queryParams = [] →
      (componentDidMount props queryParams s).effects = [] ∧
      (componentDidMount props queryParams s).state = s) ∧
    (queryParams.message ≠ some "StripeAccountConnected" →
      componentDidMountCalls props queryParams = []) ∧
    (queryParams.CollectiveId = .missing → componentDidMountCalls props queryParams = []) ∧
    (∀ text, queryParams.CollectiveId = .notNumeric text →
      componentDidMountCalls props queryParams = []) ∧
    (∀ n : Nat, Number queryParams.CollectiveId = .value n →
      Nullable.value n = getHostId props.collective →
      componentDidMountCalls props queryParams = []) := by
  refine ⟨componentDidMountCalls_eq_iff props queryParams,
    componentDidMountCalls_cases props queryParams, ?_, ?_, ?_, ?_, ?_, ?_⟩
  · intro n hcalls
    have hcond := (componentDidMountCalls_eq_iff props queryParams n).mp hcalls
    obtain ⟨_, _, h0, hne⟩ := hcond
    simp only [componentDidMount, hcalls, changeHost, if_neg hne]
    split <;> simp [Nullable.truthy, h0]
  · intro hcalls
    simp [componentDidMount, hcalls]
  · intro hmsg
    simp [componentDidMountCalls, hmsg]
  · intro hmissing
    simp [componentDidMountCalls, hmissing, Number]
  · intro text htext
    simp [componentDidMountCalls, htext, Number]
  · intro n hnum hsame
    simp [componentDidMountCalls, hnum, hsame]

/-- Witness of C12: the collective of scenario C (no host) is opened with
`?message=StripeAccountConnected&CollectiveId=5`; host 5 is requested once. -/
theorem componentDidMount_trigger_witness :
    componentDidMountCalls (propsFor scenarioC)
        { message := some "StripeAccountConnected", CollectiveId := .decimal 5 }
      = [{ id := .value 5 }] ∧
    (componentDidMount (propsFor scenarioC)
        { message := some "StripeAccountConnected", CollectiveId := .decimal 5 }
        HostState.initial).effects
      = [.editCollectiveMutation 3 (.value 5)] :=
  ⟨((componentDidMount_trigger (propsFor scenarioC)
      { message := some "StripeAccountConnected", CollectiveId := .decimal 5 }
      HostState.initial).1 5).mpr (by decide),
    (componentDidMount_trigger (propsFor scenarioC)
      { message := some "StripeAccountConnected", CollectiveId := .decimal 5 }
      HostState.initial).2.2.1 5 (by decide)⟩

/-! ### `changeHost`: the route push and a failing mutation -/

theorem changeHost_effects_cases (props : HostProps) (s : HostState) (newHost : NewHost) :
    (newHost.id = getHostId props.collective ∧ (changeHost props s newHost).effects = []) ∨
    (newHost.id ≠ getHostId props.collective ∧
      (∃ error, props.editCollectiveMutation props.collective.id newHost.id = .error error) ∧
      (changeHost props s newHost).effects
        = [.editCollectiveMutation props.collective.id newHost.id]) ∨
    (newHost.id ≠ getHostId props.collective ∧
      props.editCollectiveMutation props.collective.id newHost.id = .ok () ∧
      newHost.id.truthy = true ∧
      (changeHost props s newHost).effects
        = [.editCollectiveMutation props.collective.id newHost.id]) ∨
    (newHost.id ≠ getHostId props.collective ∧
      props.editCollectiveMutation props.collective.id newHost.id = .ok () ∧
      newHost.id.truthy = false ∧
      (changeHost props s newHost).effects
        = [.editCollectiveMutation props.collective.id newHost.id,
            updateSelectedOption props "noHost"]) := by
  by_cases hsame : newHost.id = getHostId props.collective
  · exact Or.inl ⟨hsame, by simp [changeHost, hsame]⟩
  · cases hresult : props.editCollectiveMutation props.collective.id newHost.id with
    | error error =>
      exact Or.inr (Or.inl ⟨hsame, ⟨error, rfl⟩, by simp [changeHost, hsame, hresult]⟩)
    | ok done =>
      cases htruthy : newHost.id.truthy
      · exact Or.inr (Or.inr (Or.inr ⟨hsame, rfl, rfl,
          by simp [changeHost, hsame, hresult, htruthy]⟩))
      · exact Or.inr (Or.inr (Or.inl ⟨hsame, rfl, rfl,
          by simp [changeHost, hsame, hresult, htruthy]⟩))

/-- C13: for a requested id as the call sites pass it (`null` from the modal, a non-zero
number from the mount and from the create-host form), `changeHost` pushes
`selectedOption = 'noHost'` exactly when the requested id is `null`, differs from the current
host id and the mutation completed; the push then comes after, and in addition to, the
mutation with `HostCollectiveId: null`; it is not issued for a non-null host id nor when the
mutation fails. -/
theorem changeHost_noHost_signal (props : HostProps) (s : HostState) (newHost : NewHost)
    (hid : newHost.id = .null ∨ ∃ n : Nat, n ≠ 0 ∧ newHost.id = .value n) :
    (updateSelectedOption props "noHost" ∈ (changeHost props s newHost).effects ↔
      (newHost.id = .null ∧ newHost.id ≠ getHostId props.collective ∧
        props.editCollectiveMutation props.collective.id newHost.id = .ok ())) ∧
    (updateSelectedOption props "noHost" ∈ (changeHost props s newHost).effects →
      (changeHost props s newHost).effects
        = [.editCollectiveMutation props.collective.id .null,
            updateSelectedOption props "noHost"]) ∧
    (newHost.id ≠ .null →
      updateSelectedOption props "noHost" ∉ (changeHost props s newHost).effects) ∧
    (∀ error : String,
      props.editCollectiveMutation props.collective.id newHost.id = .error error →
      updateSelectedOption props "noHost" ∉ (changeHost props s newHost).effects) := by
  have htruthy : newHost.id.truthy = false ↔ newHost.id = .null := by
    rcases hid with h | ⟨n, hn, h⟩
    · simp [h, Nullable.truthy]
    · simp [h, Nullable.truthy, hn]
  have hcases := changeHost_effects_cases props s newHost
  have hiff : updateSelectedOption props "noHost" ∈ (changeHost props s newHost).effects ↔
      (newHost.id = .null ∧ newHost.id ≠ getHostId props.collective ∧
        props.editCollectiveMutation props.collective.id newHost.id = .ok ()) := by
    rw [← htruthy]
    rcases hcases with ⟨hsame, heff⟩ | ⟨hne, ⟨error, herr⟩, heff⟩ | ⟨hne, hok, ht, heff⟩ |
      ⟨hne, hok, ht, heff⟩
    · simp [heff, hsame]
    · simp [heff, herr, updateSelectedOption]
    · simp [heff, ht, updateSelectedOption]
    · simp [heff, ht, hne, hok]
  refine ⟨hiff, ?_, ?_, ?_⟩
  · intro hmem
    have hnull := (hiff.mp hmem).1
    rcases hcases with ⟨_, heff⟩ | ⟨_, _, heff⟩ | ⟨_, _, _, heff⟩ | ⟨_, _, _, heff⟩
    · rw [heff] at hmem; simp at hmem
    · rw [heff] at hmem; simp [updateSelectedOption] at hmem
    · rw [heff] at hmem; simp [updateSelectedOption] at hmem
    · rw [heff, hnull]
  · intro hne hmem
    exact hne (hiff.mp hmem).1
  · intro error herr hmem
    have hok := (hiff.mp hmem).2.2
    rw [herr] at hok
    cases hok

/-- Witness of C13: confirming the withdrawal of the application to host 9 issues the mutation
with `HostCollectiveId: null` and then the `noHost` route push. -/
theorem changeHost_noHost_signal_witness :
    (changeHost (propsFor scenarioEPending) { showModal := true, action := "Withdraw" }
        NewHost.default).effects
      = [.editCollectiveMutation 3 .null,
          .pushRoute "editCollective" "webpack" "host" "noHost"] :=
  (changeHost_noHost_signal (propsFor scenarioEPending)
    { showModal := true, action := "Withdraw" } NewHost.default (Or.inl rfl)).2.1
    (((changeHost_noHost_signal (propsFor scenarioEPending)
      { showModal := true, action := "Withdraw" } NewHost.default (Or.inl rfl)).1).mpr
      ⟨rfl, by decide, rfl⟩)

/-- C14, as stated, fails for `changeHost`: it has no `catch`, so when the mutation
collaborator rejects, the promise of `changeHost` is rejected with the same reason. -/
theorem changeHost_rejects_on_failure :
    (changeHost (failingPropsFor scenarioE) { showModal := true, action := "Remove" }
        NewHost.default).result = .error "Network error" := by
  rfl

/-- C14, amended: the Update and Save handlers of the popup catch a failure of their mutation
and complete, with an `error` notification carrying the message.  `changeHost` does not catch:
when `editCollectiveMutation` fails its promise is rejected with that failure, after the modal
was closed; nothing but the mutation was called, so no route is pushed, and the action kept in
the local state is as before. -/
theorem remote_failure_handling :
    (∀ (props : PopupProps) (s : PopupState) (selected : PaymentOption) (error : String),
      s.selectedPaymentMethod = some selected →
      props.submitUpdatePaymentMethod props.contribution.id selected.paymentMethod.id
        = .error error →
      (updateOnClick props s).result = .ok none ∧
      PopupEffect.createNotification "error"
        (some (props.getErrorFromGraphqlException (.rejection error)))
          ∈ (updateOnClick props s).effects) ∧
    (∀ (props : PopupProps) (s : PopupState) (stripe : Stripe) (token error : String),
      stripe.createToken = .token token →
      props.submitAddPaymentMethod (props.stripeTokenToPaymentMethod token) = .error error →
      (saveOnClick props (some stripe) s).result = .ok none ∧
      (saveOnClick props (some stripe) s).state = s ∧
      PopupEffect.createNotification "error"
        (some (props.getErrorFromGraphqlException (.rejection error)))
          ∈ (saveOnClick props (some stripe) s).effects) ∧
    (∀ (props : HostProps) (s : HostState) (newHost : NewHost) (error : String),
      newHost.id ≠ getHostId props.collective →
      props.editCollectiveMutation props.collective.id newHost.id = .error error →
      (changeHost props s newHost).result = .error error ∧
      (changeHost props s newHost).state = { s with showModal := false } ∧
      (changeHost props s newHost).effects
        = [.editCollectiveMutation props.collective.id newHost.id]) := by
  refine ⟨?_, ?_, ?_⟩
  · intro props s selected error hselected hfail
    simp [updateOnClick, hselected, hfail]
  · intro props s stripe token error htoken hfail
    simp [saveOnClick, htoken, hfail]
  · intro props s newHost error hne hfail
    simp [changeHost, hne, hfail]

/-- Witness of C14 amended: with failing collaborators, Update on a popup with a selection
completes with an `error` notification, and `changeHost()` on the collective of scenario E
is rejected after the single mutation call. -/
theorem remote_failure_handling_witness :
    ((updateOnClick (popupPropsWith (.error "declined")) popupWithSelection).result = .ok none ∧
      PopupEffect.createNotification "error" (some "declined")
        ∈ (updateOnClick (popupPropsWith (.error "declined")) popupWithSelection).effects) ∧
    ((changeHost (failingPropsFor scenarioE) HostState.initial NewHost.default).result
        = .error "Network error" ∧
      (changeHost (failingPropsFor scenarioE) HostState.initial NewHost.default).state
        = { HostState.initial with showModal := false } ∧
      (changeHost (failingPropsFor scenarioE) HostState.initial NewHost.default).effects
        = [.editCollectiveMutation 3 .null]) :=
  ⟨remote_failure_handling.1 (popupPropsWith (.error "declined")) popupWithSelection
      (toPaymentOption Lib.plain scenarioB) "declined" rfl rfl,
    remote_failure_handling.2.2 (failingPropsFor scenarioE) HostState.initial NewHost.default
      "Network error" (by decide) rfl⟩

/-! ### The Update button of the popup -/

/-- C15: the Update button is enabled only with a selection.  Run with a selection, the
handler first calls the update mutation with the contribution's id as order id and the id of
the selected option's payment method as `legacyId`; when the mutation succeeds it then issues
the `update` notification and `setShowPopup(false)`; when it fails it issues an `error`
notification with the error's message instead, never calls `setShowPopup`, and leaves the
selection as it was. -/
theorem updateOnClick_contract (props : PopupProps) (s : PopupState) :
    (updateDisabled s = false → ∃ selected, s.selectedPaymentMethod = some selected) ∧
    (∀ selected : PaymentOption, s.selectedPaymentMethod = some selected →
      (updateOnClick props s).effects.head?
        = some (.submitUpdatePaymentMethod props.contribution.id selected.paymentMethod.id) ∧
      (props.submitUpdatePaymentMethod props.contribution.id selected.paymentMethod.id
          = .ok () →
        (updateOnClick props s).effects
          = [.submitUpdatePaymentMethod props.contribution.id selected.paymentMethod.id,
              .createNotification "update" none, .setShowPopup false]) ∧
      (∀ error : String,
        props.submitUpdatePaymentMethod props.contribution.id selected.paymentMethod.id
          = .error error →
        (updateOnClick props s).effects
          = [.submitUpdatePaymentMethod props.contribution.id selected.paymentMethod.id,
              .createNotification "error"
                (some (props.getErrorFromGraphqlException (.rejection error)))] ∧
        (∀ value : Bool, PopupEffect.setShowPopup value ∉ (updateOnClick props s).effects) ∧
        (updateOnClick props s).state.selectedPaymentMethod = s.selectedPaymentMethod)) := by
  refine ⟨?_, ?_⟩
  · intro henabled
    cases hsel : s.selectedPaymentMethod with
    | none => simp [updateDisabled, hsel] at henabled
    | some selected => exact ⟨selected, rfl⟩
  · intro selected hselected
    refine ⟨?_, ?_, ?_⟩
    · cases hresult : props.submitUpdatePaymentMethod props.contribution.id
          selected.paymentMethod.id <;>
        simp [updateOnClick, hselected, hresult]
    · intro hok
      simp [updateOnClick, hselected, hok]
    · intro error hfail
      simp [updateOnClick, hselected, hfail]

/-- Witness of C15: with `pm-2` selected and a failing mutation, Update calls the mutation
for order 7 and payment method 2, then notifies the error. -/
theorem updateOnClick_contract_witness :
    (updateOnClick (popupPropsWith (.error "declined")) popupWithSelection).effects
      = [.submitUpdatePaymentMethod 7 2, .createNotification "error" (some "declined")] :=
  ((updateOnClick_contract (popupPropsWith (.error "declined")) popupWithSelection).2
    (toPaymentOption Lib.plain scenarioB) rfl).2.2 "declined" rfl |>.1

/-! ### The modal and its action -/

theorem changeHost_state (props : HostProps) (s : HostState) (newHost : NewHost) :
    (changeHost props s newHost).state = { s with showModal := false } := by
  unfold changeHost
  simp only
  split
  · rfl
  · split
    · rfl
    · split <;> rfl

/-- One offered action either presses the withdraw button (collective not active), or presses
the remove button (collective active, balance zero), or keeps the action and does not open
the modal. -/
theorem handle_state_cases (props : HostProps) (s : HostState) (action : UserAction)
    (hoffered : offered props s action = true) :
    (action = .clickWithdraw ∧ props.collective.isActive = false ∧
      (handle props s action).state = { showModal := true, action := "Withdraw" }) ∨
    (action = .clickRemove ∧ props.collective.isActive = true ∧
      props.collective.balance = 0 ∧
      (handle props s action).state = { showModal := true, action := "Remove" }) ∨
    ((handle props s action).state.action = s.action ∧
      ((handle props s action).state.showModal = true → s.showModal = true)) := by
  cases action with
  | clickWithdraw =>
    refine Or.inl ⟨rfl, ?_, rfl⟩
    by_cases hhost : (getHostId props.collective).truthy = true
    · simpa [offered, hhost] using hoffered
    · simp [offered, hhost] at hoffered
  | clickRemove =>
    refine Or.inr (Or.inl ⟨rfl, ?_⟩)
    by_cases hhost : (getHostId props.collective).truthy = true
    · simp only [offered, hhost, if_true, Bool.and_eq_true, decide_eq_true_eq] at hoffered
      exact ⟨hoffered.1, hoffered.2, rfl⟩
    · simp [offered, hhost] at hoffered
  | closeModal => exact Or.inr (Or.inr ⟨rfl, by simp [handle]⟩)
  | cancel => exact Or.inr (Or.inr ⟨rfl, by simp [handle]⟩)
  | confirm => exact Or.inr (Or.inr ⟨by simp [handle, changeHost_state],
      by simp [handle, changeHost_state]⟩)
  | selectOption option => exact Or.inr (Or.inr ⟨rfl, fun h => h⟩)
  | submitOwnHost hostCollective =>
    exact Or.inr (Or.inr ⟨by simp [handle, changeHost_state],
      by simp [handle, changeHost_state]⟩)

/-- Along a session the modal is open only with the action of the button that opened it, and
an action differing from the one at the start was set by its button under props that showed
that button. -/
theorem runSession_invariant (steps : List (HostProps × UserAction)) :
    ∀ (s s' : HostState) (effects : List Effect),
      runSession s steps = some (s', effects) →
      (s'.showModal = true →
        (s.showModal = true ∧ s'.action = s.action) ∨
          s'.action = "Withdraw" ∨ s'.action = "Remove") ∧
      (s'.action = "Withdraw" → s.action = "Withdraw" ∨
        ∃ props, (props, UserAction.clickWithdraw) ∈ steps ∧
          props.collective.isActive = false) ∧
      (s'.action = "Remove" → s.action = "Remove" ∨
        ∃ props, (props, UserAction.clickRemove) ∈ steps ∧
          props.collective.isActive = true ∧ props.collective.balance = 0) ∧
      (s'.action = s.action ∨ s'.action = "Withdraw" ∨ s'.action = "Remove") := by
  induction steps with
  | nil =>
    intro s s' effects hrun
    simp only [runSession, Option.some.injEq, Prod.mk.injEq] at hrun
    obtain ⟨rfl, _⟩ := hrun
    exact ⟨fun h => Or.inl ⟨h, rfl⟩, fun h => Or.inl h, fun h => Or.inl h, Or.inl rfl⟩
  | cons step rest ih =>
    intro s s' effects hrun
    obtain ⟨props, action⟩ := step
    simp only [runSession] at hrun
    split at hrun
    · rename_i hoffered
      simp only [Option.map_eq_some', Prod.exists] at hrun
      obtain ⟨s1, effects1, hrest, heq⟩ := hrun
      simp only [Prod.mk.injEq] at heq
      obtain ⟨rfl, _⟩ := heq
      obtain ⟨hopen, hwithdraw, hremove, haction⟩ := ih _ _ _ hrest
      rcases handle_state_cases props s action hoffered with
        ⟨rfl, hinactive, hstate⟩ | ⟨rfl, hactive, hzero, hstate⟩ | ⟨hkeep, hshow⟩
      · rw [hstate] at hopen hwithdraw hremove haction
        simp only at hopen hwithdraw hremove haction
        refine ⟨?_, ?_, ?_, ?_⟩
        · intro h
          rcases hopen h with ⟨_, h1⟩ | h1 | h1
          · exact Or.inr (Or.inl h1)
          · exact Or.inr (Or.inl h1)
          · exact Or.inr (Or.inr h1)
        · intro h
          rcases hwithdraw h with _ | ⟨p, hp, hpa⟩
          · exact Or.inr ⟨props, List.mem_cons_self _ _, hinactive⟩
          · exact Or.inr ⟨p, List.mem_cons_of_mem _ hp, hpa⟩
        · intro h
          rcases hremove h with h1 | ⟨p, hp, hpa⟩
          · exact absurd h1 (by decide)
          · exact Or.inr ⟨p, List.mem_cons_of_mem _ hp, hpa⟩
        · rcases haction with h1 | h1 | h1
          · exact Or.inr (Or.inl h1)
          · exact Or.inr (Or.inl h1)
          · exact Or.inr (Or.inr h1)
      · rw [hstate] at hopen hwithdraw hremove haction
        simp only at hopen hwithdraw hremove haction
        refine ⟨?_, ?_, ?_, ?_⟩
        · intro h
          rcases hopen h with ⟨_, h1⟩ | h1 | h1
          · exact Or.inr (Or.inr h1)
          · exact Or.inr (Or.inl h1)
          · exact Or.inr (Or.inr h1)
        · intro h
          rcases hwithdraw h with h1 | ⟨p, hp, hpa⟩
          · exact absurd h1 (by decide)
          · exact Or.inr ⟨p, List.mem_cons_of_mem _ hp, hpa⟩
        · intro h
          rcases hremove h with _ | ⟨p, hp, hpa⟩
          · exact Or.inr ⟨props, List.mem_cons_self _ _, hactive, hzero⟩
          · exact Or.inr ⟨p, List.mem_cons_of_mem _ hp, hpa⟩
        · rcases haction with h1 | h1 | h1
          · exact Or.inr (Or.inr h1)
          · exact Or.inr (Or.inl h1)
          · exact Or.inr (Or.inr h1)
      · rw [hkeep] at hopen hwithdraw hremove haction
        refine ⟨?_, ?_, ?_, haction⟩
        · intro h
          rcases hopen h with ⟨h0, h1⟩ | h1 | h1
          · exact Or.inl ⟨hshow h0, h1⟩
          · exact Or.inr (Or.inl h1)
          · exact Or.inr (Or.inr h1)
        · intro h
          rcases hwithdraw h with h1 | ⟨p, hp, hpa⟩
          · exact Or.inl h1
          · exact Or.inr ⟨p, List.mem_cons_of_mem _ hp, hpa⟩
        · intro h
          rcases hremove h with h1 | ⟨p, hp, hpa⟩
          · exact Or.inl h1
          · exact Or.inr ⟨p, List.mem_cons_of_mem _ hp, hpa⟩
    · exact absurd hrun (by simp)

theorem componentDidMount_state_initial (props : HostProps) (queryParams : QueryParams) :
    (componentDidMount props queryParams HostState.initial).state = HostState.initial := by
  unfold componentDidMount
  split
  · rw [changeHost_state]; rfl
  · rfl

/-- C16: from the state of the constructor, after `componentDidMount` and any sequence of
offered steps (the props may change between steps), a state with `showModal = true` has the
action `Withdraw` or `Remove`; the action is `Withdraw` only if the withdraw button was
pressed while the collective was not active, and `Remove` only if the remove button was
pressed while the collective was active with balance 0; otherwise it is still the empty
string. -/
theorem modal_action_set (mountProps : HostProps) (queryParams : QueryParams)
    (steps : List (HostProps × UserAction)) (s : HostState) (effects : List Effect)
    (hrun : runSession (componentDidMount mountProps queryParams HostState.initial).state steps
      = some (s, effects)) :
    (s.showModal = true → s.action = "Withdraw" ∨ s.action = "Remove") ∧
    (s.action = "Withdraw" →
      ∃ props, (props, UserAction.clickWithdraw) ∈ steps ∧
        props.collective.isActive = false) ∧
    (s.action = "Remove" →
      ∃ props, (props, UserAction.clickRemove) ∈ steps ∧
        props.collective.isActive = true ∧ props.collective.balance = 0) ∧
    (s.action = "" ∨ s.action = "Withdraw" ∨ s.action = "Remove") := by
  rw [componentDidMount_state_initial] at hrun
  obtain ⟨hopen, hwithdraw, hremove, haction⟩ := runSession_invariant steps _ _ _ hrun
  refine ⟨?_, ?_, ?_, haction⟩
  · intro h
    rcases hopen h with ⟨h0, _⟩ | h1
    · exact absurd h0 (by decide)
    · exact h1
  · intro h
    rcases hwithdraw h with h1 | h1
    · exact absurd h1 (by decide)
    · exact h1
  · intro h
    rcases hremove h with h1 | h1
    · exact absurd h1 (by decide)
    · exact h1

/-- Witness of C16: on the pending collective of scenario E the withdraw button is pressed;
the modal is open with the action `Withdraw`, which was set while the collective was not
active. -/
theorem modal_action_set_witness :
    runSession HostState.initial [(propsFor scenarioEPending, .clickWithdraw)]
      = some ({ showModal := true, action := "Withdraw" }, []) ∧
    ∃ props, (props, UserAction.clickWithdraw) ∈ [(propsFor scenarioEPending, .clickWithdraw)] ∧
      props.collective.isActive = false :=
  ⟨by decide,
    (modal_action_set (propsFor scenarioEPending) { message := none, CollectiveId := .missing }
      [(propsFor scenarioEPending, .clickWithdraw)] { showModal := true, action := "Withdraw" }
      [] (by decide)).2.1 rfl⟩

end OpenCollective
